import Mathlib

/-!
Verification of the data-normalization and risk-scoring pipeline of the
dashboard_School repository (src/dashboard_school/processing.py and the upload
gate of src/dashboard_school/main.py).

Modelling conventions (shallow embedding):
* Python strings are lists of Unicode codepoints (`PyStr := List Nat`); `lit`
  converts a Lean string literal to that form.
* `unicodedata.normalize("NFKD", ·)` followed by dropping combining marks
  (the `remove_accents` helper) is modelled by a finite decomposition table
  covering the Latin-1 accented letters the application processes; characters
  outside the table decompose to themselves.  `str.lower()` is modelled on the
  ASCII range.  Python's `\s`/`strip` whitespace is modelled by the six ASCII
  whitespace codepoints.
* Python floats are modelled by `Rat`; `NaN` is the `Cell.na` constructor of
  the cell type, mirroring how the pipeline only ever treats NaN through
  `pd.isna`/`pd.notna` and skip-NaN means.
* A pandas DataFrame is a list of column labels (duplicates allowed, as they
  arise from `rename`) together with rows of cells.
-/

/-- Python strings as lists of Unicode codepoints. -/
abbrev PyStr := List Nat

/-- Convert a Lean string literal to its codepoint list. -/
def lit (s : String) : PyStr := s.data.map Char.toNat

/-- The codepoints Python treats as whitespace in `str.strip` and `\s`
(restricted to the ASCII range used by the application). -/
def isWs (n : Nat) : Bool := n == 32 || n == 9 || n == 10 || n == 13 || n == 11 || n == 12

/-- The byte-order mark removed by `s.replace("﻿", "")`. -/
def bomCode : Nat := 65279

/-- Combining marks produced by the NFKD decompositions in the table below:
U+0300 grave, U+0301 acute, U+0302 circumflex, U+0303 tilde, U+0308 diaeresis,
U+0327 cedilla. -/
def isCombining (n : Nat) : Bool :=
  n == 768 || n == 769 || n == 770 || n == 771 || n == 776 || n == 807

/-- NFKD decomposition table: (precomposed char, base char, combining mark).
Covers the accented Latin letters of the application's Portuguese data
(a/e/i/o/u with grave, acute, circumflex, tilde, diaeresis, and c-cedilla,
both cases). -/
def accTable : List (Nat × Nat × Nat) :=
  [ (224, 97, 768), (225, 97, 769), (226, 97, 770), (227, 97, 771), (228, 97, 776),
    (232, 101, 768), (233, 101, 769), (234, 101, 770), (235, 101, 776),
    (236, 105, 768), (237, 105, 769), (238, 105, 770), (239, 105, 776),
    (242, 111, 768), (243, 111, 769), (244, 111, 770), (245, 111, 771), (246, 111, 776),
    (249, 117, 768), (250, 117, 769), (251, 117, 770), (252, 117, 776),
    (231, 99, 807),
    (192, 65, 768), (193, 65, 769), (194, 65, 770), (195, 65, 771), (196, 65, 776),
    (200, 69, 768), (201, 69, 769), (202, 69, 770), (203, 69, 776),
    (204, 73, 768), (205, 73, 769), (206, 73, 770), (207, 73, 776),
    (210, 79, 768), (211, 79, 769), (212, 79, 770), (213, 79, 771), (214, 79, 776),
    (217, 85, 768), (218, 85, 769), (219, 85, 770), (220, 85, 776),
    (199, 67, 807) ]

/-- NFKD decomposition of one codepoint (table above, identity otherwise). -/
def nfkd (n : Nat) : PyStr :=
  match accTable.find? (fun t => t.1 == n) with
  | some t => [t.2.1, t.2.2]
  | none => [n]

/-- `remove_accents` from processing.py: NFKD-decompose and drop combining
marks. -/
def remove_accents (l : PyStr) : PyStr :=
  (l.flatMap nfkd).filter (fun n => !(isCombining n))

/-- Python `str.lower()` on the ASCII range. -/
def pyLower (n : Nat) : Nat := if 65 ≤ n ∧ n ≤ 90 then n + 32 else n

/-- Lowercase a whole string. -/
def pyLowerL (l : PyStr) : PyStr := l.map pyLower

/-- `s.replace("﻿", "")`. -/
def debom (l : PyStr) : PyStr := l.filter (fun n => !(n == bomCode))

/-- Python `str.strip()`. -/
def pyStrip (l : PyStr) : PyStr :=
  ((l.dropWhile (fun n => isWs n)).reverse.dropWhile (fun n => isWs n)).reverse

/-- `s.replace("\t", " ")`. -/
def tabToSpace (l : PyStr) : PyStr := l.map (fun n => if n == 9 then 32 else n)

/-- `s.replace("-", "_")`. -/
def dashToUnderscore (l : PyStr) : PyStr := l.map (fun n => if n == 45 then 95 else n)

/-- `re.sub(r'\s+', '_', s)`: every maximal run of whitespace becomes one
underscore.  The flag records whether we are inside a whitespace run. -/
def collapseWsAux : Bool → PyStr → PyStr
  | _, [] => []
  | inRun, n :: rest =>
    if isWs n then
      if inRun then collapseWsAux true rest else 95 :: collapseWsAux true rest
    else n :: collapseWsAux false rest

/-- `re.sub(r'\s+', '_', s)`. -/
def collapseWs (l : PyStr) : PyStr := collapseWsAux false l

/-- The body of `normalize_str` applied to a non-missing value already
converted to a string: BOM removal, strip, accent removal, lowercasing,
tab/hyphen replacement, whitespace collapsing — in source order. -/
def normList (l : PyStr) : PyStr :=
  collapseWs (dashToUnderscore (tabToSpace (pyLowerL (remove_accents (pyStrip (debom l))))))

/-- `normalize_str` from processing.py; `none` models a `pd.isna` input. -/
def normalize_str : Option PyStr → PyStr
  | none => []
  | some l => normList l

-- Sanity examples mirroring tests/test_unit_processing.py.
example : normalize_str (some (lit "Hello World")) = lit "hello_world" := by decide
example : normalize_str (some (lit "Test-Case")) = lit "test_case" := by decide
example : normalize_str (some (lit "Formação")) = lit "formacao" := by decide
example : normalize_str (some (lit "Período Letivo")) = lit "periodo_letivo" := by decide
example : normalize_str (some (lit "  multiple   spaces  ")) = lit "multiple_spaces" := by decide
example : remove_accents (lit "café") = lit "cafe" := by decide
example : remove_accents (lit "açúcar") = lit "acucar" := by decide

/-! ## Cells and Python substring search -/

/-- One DataFrame cell: NaN, a string, a float (as a rational), or a bool. -/
inductive Cell where
  | na : Cell
  | s (v : PyStr) : Cell
  | num (v : Rat) : Cell
  | b (v : Bool) : Cell
deriving DecidableEq, Repr

/-- `pat` is a prefix of `l` (helper for substring search). -/
def leadsWith : PyStr → PyStr → Bool
  | [], _ => true
  | _ :: _, [] => false
  | a :: as, c :: cs => a == c && leadsWith as cs

/-- Python's `pat in l` for strings: contiguous substring containment. -/
def hasInfix (pat : PyStr) : PyStr → Bool
  | [] => leadsWith pat []
  | l@(_ :: rest) => leadsWith pat l || hasInfix pat rest

/-- Python `str(value)` on a cell (`str(np.nan) = "nan"`). -/
def pyStrCell : Cell → PyStr
  | .na => lit "nan"
  | .s v => v
  | .num q => lit (toString q)
  | .b true => lit "True"
  | .b false => lit "False"

/-! ## Categorical mappers (processing.py lines 56-123)

Each mapper receives a raw cell; `pd.isna` is true exactly on `Cell.na`;
otherwise the value is normalized and tested for keyword substrings in source
order, falling through to the field's default. -/

/-- The `elif` keyword chain of `map_admission_type` on the normalized
value. -/
def admissionChain (nz : PyStr) : PyStr :=
  if hasInfix (lit "externa") nz || hasInfix (lit "external") nz then lit "transferencia_externa"
  else if hasInfix (lit "interna") nz || hasInfix (lit "internal") nz then lit "transferencia_interna"
  else if hasInfix (lit "bolsa") nz || hasInfix (lit "scholarship") nz || hasInfix (lit "promocao") nz then lit "bolsista"
  else if hasInfix (lit "vestibular") nz || hasInfix (lit "entrance") nz then lit "vestibular"
  else lit "vestibular"

/-- `map_admission_type` from processing.py. -/
def map_admission_type (value : Cell) : PyStr :=
  match value with
  | .na => lit "vestibular"
  | v => admissionChain (normList (pyStrCell v))

/-- The `elif` keyword chain of `map_enrollment_status` on the normalized
value. -/
def enrollmentChain (nz : PyStr) : PyStr :=
  if hasInfix (lit "evadido") nz || hasInfix (lit "dropped") nz || hasInfix (lit "desistente") nz then lit "evadido"
  else if hasInfix (lit "trancado") nz || hasInfix (lit "suspended") nz || hasInfix (lit "trancamento") nz then lit "trancado"
  else if hasInfix (lit "ativo") nz || hasInfix (lit "active") nz || hasInfix (lit "matriculado") nz then lit "ativo"
  else lit "ativo"

/-- `map_enrollment_status` from processing.py. -/
def map_enrollment_status (value : Cell) : PyStr :=
  match value with
  | .na => lit "ativo"
  | v => enrollmentChain (normList (pyStrCell v))

/-- The `elif` keyword chain of `map_discipline_status` on the normalized
value. -/
def disciplineChain (nz : PyStr) : PyStr :=
  if hasInfix (lit "aprovado") nz || hasInfix (lit "approved") nz || hasInfix (lit "passed") nz then lit "aprovado"
  else if hasInfix (lit "reprovado") nz || hasInfix (lit "failed") nz || hasInfix (lit "reprovacao") nz then lit "reprovado"
  else if hasInfix (lit "andamento") nz || hasInfix (lit "progress") nz || hasInfix (lit "cursando") nz then lit "em_andamento"
  else lit "em_andamento"

/-- `map_discipline_status` from processing.py. -/
def map_discipline_status (value : Cell) : PyStr :=
  match value with
  | .na => lit "em_andamento"
  | v => disciplineChain (normList (pyStrCell v))

/-- The `elif` keyword chain of `map_payment_status` on the normalized
value. -/
def paymentChain (nz : PyStr) : PyStr :=
  if hasInfix (lit "pago") nz || hasInfix (lit "paid") nz || hasInfix (lit "quitado") nz then lit "pago"
  else if hasInfix (lit "atrasado") nz || hasInfix (lit "overdue") nz || hasInfix (lit "late") nz || hasInfix (lit "vencido") nz then lit "atrasado"
  else if hasInfix (lit "pendente") nz || hasInfix (lit "pending") nz then lit "pendente"
  else lit "pendente"

/-- `map_payment_status` from processing.py. -/
def map_payment_status (value : Cell) : PyStr :=
  match value with
  | .na => lit "pendente"
  | v => paymentChain (normList (pyStrCell v))

-- Sanity examples mirroring tests/test_unit_processing.py.
example : map_admission_type (Cell.s (lit "Transferência Externa")) = lit "transferencia_externa" := by decide
example : map_admission_type (Cell.s (lit "EXTERNAL TRANSFER")) = lit "transferencia_externa" := by decide
example : map_enrollment_status (Cell.s (lit "matriculado")) = lit "ativo" := by decide
example : map_discipline_status (Cell.s (lit "reprovação")) = lit "reprovado" := by decide
example : map_payment_status (Cell.s (lit "PAID")) = lit "pago" := by decide
example : map_payment_status (Cell.s (lit "vencido")) = lit "atrasado" := by decide

/-! ## DataFrame model -/

/-- A pandas DataFrame: column labels (duplicates possible after `rename`) and
rows of cells, row cells positionally aligned with the labels. -/
structure DF where
  cols : List PyStr
  rows : List (List Cell)
deriving DecidableEq, Repr

/-- Well-formedness: every row has exactly one cell per column. -/
def dfWf (df : DF) : Prop := ∀ r ∈ df.rows, r.length = df.cols.length

instance (df : DF) : Decidable (dfWf df) := by unfold dfWf; infer_instance

/-- Index of the first column with the given label (pandas label lookup). -/
def colIdx : List PyStr → PyStr → Option Nat
  | [], _ => none
  | c :: cs, n => if c == n then some 0 else (colIdx cs n).map (· + 1)

/-- The cell of `row` under the first column labelled `name` (`Cell.na` when
the label is absent or the row is exhausted; equivalently, the row cell at
`colIdx cols name`). -/
def getCell : List PyStr → List Cell → PyStr → Cell
  | [], _, _ => .na
  | _ :: _, [], _ => .na
  | c :: cs, x :: xs, name => if c == name then x else getCell cs xs name

/-- Rewrite the cells of every column labelled `name` in one row
(pandas `df[name] = ...` broadcasts over duplicate labels). -/
def broadcastCol (cols : List PyStr) (name : PyStr) (f : Cell → Cell) (row : List Cell) : List Cell :=
  List.zipWith (fun c x => if c == name then f x else x) cols row

/-- Apply `f` to every cell of every column labelled `name`. -/
def mapColCells (df : DF) (name : PyStr) (f : Cell → Cell) : DF :=
  ⟨df.cols, df.rows.map (broadcastCol df.cols name f)⟩

/-- `df[name] = series` where the series value for a row is `f row`:
replace all columns labelled `name` when present, else append a new column. -/
def setColWith (df : DF) (name : PyStr) (f : List Cell → Cell) : DF :=
  if name ∈ df.cols then
    ⟨df.cols, df.rows.map (fun row => broadcastCol df.cols name (fun _ => f row) row)⟩
  else
    ⟨df.cols ++ [name], df.rows.map (fun row => row ++ [f row])⟩

/-! ## Column resolution (processing.py lines 126-164) -/

/-- The keyword chain of lines 132-162 applied to one (already normalized)
column name; unmatched names are left unchanged by `rename`. -/
def mapColName (col : PyStr) : PyStr :=
  let cl := pyLowerL col
  let has := fun (w : String) => hasInfix (lit w) cl
  if (has "avaliacao" && has "curso") || has "nota_avaliacao_curso" then lit "course_evaluation"
  else if (has "nota" && has "final") || cl == lit "nota_final" then lit "final_grade"
  else if has "id" && has "aluno" then lit "student_id"
  else if has "curso" && !(has "avaliacao") then lit "course"
  else if has "periodo" || has "semestre" || has "letivo" then lit "semester"
  else if has "disciplina" && !(has "status") then lit "discipline"
  else if has "frequencia" || has "attendance" then lit "attendance_pct"
  else if (has "status" && has "pagamento") || has "pagamento" then lit "payment_status"
  else if has "status" && has "disciplina" then lit "discipline_status"
  else if (has "avaliacao" && has "curso") || (has "nota" && has "curso") then lit "course_evaluation"
  else if has "status" && has "matricula" then lit "enrollment_status"
  else if has "forma" && has "ingresso" then lit "admission_type"
  else if has "ingresso" || has "admission" then lit "admission_type"
  else if cl == lit "nota" then lit "final_grade"
  else col

/-- Line 129: `df.columns = [normalize_str(col) for col in df.columns]`. -/
def normColsStep (df : DF) : DF := ⟨df.cols.map normList, df.rows⟩

/-- Line 164: `df.rename(columns=column_mapping)`. -/
def renameStep (df : DF) : DF := ⟨df.cols.map mapColName, df.rows⟩

/-- The column labels after resolution (used to state "field absent in the
source"). -/
def resolvedCols (df : DF) : List PyStr := (renameStep (normColsStep df)).cols

/-! ## Duplicate-target collapse (processing.py lines 166-169) -/

/-- `next((x for x in row if pd.notna(x)), np.nan)` over the cells of the
columns labelled `name`, in column order. -/
def firstNonNa (cols : List PyStr) (row : List Cell) (name : PyStr) : Cell :=
  (((List.zip cols row).filterMap (fun p => if p.1 == name then some p.2 else none)).find?
    (fun c => !(c == Cell.na))).getD .na

/-- Lines 166-169 for one target: when the label is duplicated
(`df[target]` is a DataFrame) every column with that label receives the
per-row first non-missing value. -/
def collapseTarget (df : DF) (name : PyStr) : DF :=
  if 2 ≤ df.cols.count name then
    ⟨df.cols, df.rows.map (fun row => broadcastCol df.cols name (fun _ => firstNonNa df.cols row name) row)⟩
  else df

/-- Lines 166-169 over the three numeric targets, in source order. -/
def collapseStep (df : DF) : DF :=
  collapseTarget (collapseTarget (collapseTarget df (lit "final_grade")) (lit "attendance_pct")) (lit "course_evaluation")

/-! ## Required-column fill (processing.py lines 171-180) -/

/-- The `required` list of line 171. -/
def requiredCols : List PyStr :=
  [lit "student_id", lit "course", lit "semester", lit "discipline", lit "final_grade",
   lit "attendance_pct", lit "payment_status", lit "discipline_status",
   lit "course_evaluation", lit "enrollment_status"]

/-- `if col not in df.columns: df[col] = np.nan`. -/
def fillNaCol (df : DF) (name : PyStr) : DF :=
  if name ∈ df.cols then df else ⟨df.cols ++ [name], df.rows.map (· ++ [.na])⟩

/-- Lines 175-177. -/
def requiredStep (df : DF) : DF := requiredCols.foldl fillNaCol df

/-- Lines 179-180: default admission_type column. -/
def admissionStep (df : DF) : DF :=
  if lit "admission_type" ∈ df.cols then df
  else ⟨df.cols ++ [lit "admission_type"], df.rows.map (· ++ [.s (lit "vestibular")])⟩

/-! ## String/number coercion (processing.py lines 182-190) -/

/-- Lines 182-185: `astype(str)` on the four identity/text columns. -/
def astypeStep (df : DF) : DF :=
  [lit "student_id", lit "course", lit "semester", lit "discipline"].foldl
    (fun d n => mapColCells d n (fun c => .s (pyStrCell c))) df

/-- Is a codepoint an ASCII digit. -/
def isDigitC (n : Nat) : Bool := 48 ≤ n && n ≤ 57

/-- Value of an all-digit string. -/
def digitsVal (l : PyStr) : Nat := l.foldl (fun a n => a * 10 + (n - 48)) 0

/-- The decimal-literal fragment of Python float parsing used by
`pd.to_numeric(..., errors="coerce")`: optional sign, digits with an optional
fractional part (exponents and specials are out of the application's data and
coerce to NaN in this model). -/
def parseQ (w : PyStr) : Option Rat :=
  let l := pyStrip w
  let signed : Bool × PyStr :=
    match l with
    | 45 :: r => (true, r)
    | 43 :: r => (false, r)
    | _ => (false, l)
  let m := signed.2
  let ip := m.takeWhile (fun n => !(n == 46))
  let rest := m.dropWhile (fun n => !(n == 46))
  let mag : Option Rat :=
    match rest with
    | [] => if ip.all isDigitC && !ip.isEmpty then some (digitsVal ip : Rat) else none
    | _ :: fp =>
      if ip.all isDigitC && fp.all isDigitC && !(ip.isEmpty && fp.isEmpty) then
        some ((digitsVal ip : Rat) + (digitsVal fp : Rat) / ((10 : Rat) ^ fp.length))
      else none
  mag.map (fun q => if signed.1 then -q else q)

/-- `pd.to_numeric(·, errors="coerce")` on one cell. -/
def toNumericCell : Cell → Cell
  | .na => .na
  | .num q => .num q
  | .s v => match parseQ v with | some q => .num q | none => .na
  | .b bv => .num (if bv then 1 else 0)

/-- Lines 187-190 for one target.  When the label is duplicated the source
crashes: `df[num_col] = series` on a duplicated label raises
`ValueError` in pandas ≥ 1.3, and in every pandas version that accepts the
assignment both duplicate columns survive it, so `pd.to_numeric(df[num_col])`
receives a two-column DataFrame and raises `TypeError` — the model collapses
either failure into the error case. -/
def numericCol (df : DF) (name : PyStr) : Except String DF :=
  if 2 ≤ df.cols.count name then .error "to_numeric received a DataFrame"
  else .ok (mapColCells df name toNumericCell)

/-- Lines 187-190 over the three numeric targets. -/
def numericStep (df : DF) : Except String DF :=
  match numericCol df (lit "final_grade") with
  | .error e => .error e
  | .ok d1 =>
    match numericCol d1 (lit "attendance_pct") with
    | .error e => .error e
    | .ok d2 => numericCol d2 (lit "course_evaluation")

/-! ## Categorical mapping step (processing.py lines 192-195) -/

/-- One `df[col] = df[col].apply(mapper)` line.  On a duplicated label
`df[col]` is a DataFrame, `apply` hands whole Series to the mapper and
`pd.isna(series)` under `if` raises the ambiguous-truth-value `ValueError`;
the model collapses that into the error case. -/
def applyMapper (df : DF) (name : PyStr) (mapper : Cell → PyStr) : Except String DF :=
  if 2 ≤ df.cols.count name then .error "truth value of a Series is ambiguous"
  else .ok (mapColCells df name (fun c => .s (mapper c)))

/-- Lines 192-195, in source order. -/
def mapperStep (df : DF) : Except String DF :=
  match applyMapper df (lit "admission_type") map_admission_type with
  | .error e => .error e
  | .ok d1 =>
    match applyMapper d1 (lit "enrollment_status") map_enrollment_status with
    | .error e => .error e
    | .ok d2 =>
      match applyMapper d2 (lit "discipline_status") map_discipline_status with
      | .error e => .error e
      | .ok d3 => applyMapper d3 (lit "payment_status") map_payment_status

/-! ## Derived flags (processing.py lines 197-202) -/

/-- `PASSING_GRADE`. -/
def PASSING_GRADE : Rat := 6

/-- `MINIMUM_ATTENDANCE`. -/
def MINIMUM_ATTENDANCE : Rat := 75

/-- `cell >= q` as pandas evaluates it on a float column (NaN compares
false). -/
def cellGE (c : Cell) (q : Rat) : Bool :=
  match c with
  | .num v => q ≤ v
  | _ => false

/-- `cell < q` on a float column (NaN compares false). -/
def cellLT (c : Cell) (q : Rat) : Bool :=
  match c with
  | .num v => v < q
  | _ => false

/-- Line 197: `is_passing` series. -/
def isPassingOf (cols : List PyStr) (row : List Cell) : Cell :=
  .b (cellGE (getCell cols row (lit "final_grade")) PASSING_GRADE &&
      cellGE (getCell cols row (lit "attendance_pct")) MINIMUM_ATTENDANCE)

/-- Lines 198-202: `at_risk` series. -/
def atRiskOf (cols : List PyStr) (row : List Cell) : Cell :=
  .b (cellLT (getCell cols row (lit "final_grade")) PASSING_GRADE ||
      cellLT (getCell cols row (lit "attendance_pct")) MINIMUM_ATTENDANCE ||
      (getCell cols row (lit "payment_status") == .s (lit "atrasado")))

/-- Lines 197-202. -/
def flagsStep (df : DF) : DF :=
  let d1 := setColWith df (lit "is_passing") (isPassingOf df.cols)
  setColWith d1 (lit "at_risk") (atRiskOf d1.cols)

/-- Lines 126-185: the phase of the pipeline before numeric coercion —
normalize column names, resolve them, collapse duplicated numeric targets,
fill required and admission columns, convert the identity columns to
strings. -/
def preStep (df : DF) : DF :=
  astypeStep (admissionStep (requiredStep (collapseStep (renameStep (normColsStep df)))))

/-- `process_university_data` continued: numeric coercion, categorical
mapping, derived flags.  The error case models the pandas exceptions raised
on duplicated canonical numeric/categorical labels (see `numericCol`,
`applyMapper`). -/
def process_university_data (df : DF) : Except String DF :=
  match numericStep (preStep df) with
  | .error e => .error e
  | .ok d =>
    match mapperStep d with
    | .error e => .error e
    | .ok d2 => .ok (flagsStep d2)

/-- The table of a successful run (dummy empty table otherwise; only used to
state facts about runs already known to succeed). -/
def getOk : Except String DF → DF
  | .ok d => d
  | .error _ => ⟨[], []⟩

/-! ## Risk scorer (processing.py lines 207-260) -/

/-- The cells of the first column labelled `name` (`[]` when absent). -/
def colVals (df : DF) (name : PyStr) : List Cell :=
  match colIdx df.cols name with
  | some i => df.rows.map (fun r => r.getD i .na)
  | none => []

/-- The numeric value of a cell, if any. -/
def cellNum? : Cell → Option Rat
  | .num q => some q
  | _ => none

/-- Skip-NaN mean of a float column (`Series.mean`): `none` models the NaN
result on an all-missing column. -/
def meanQ (cs : List Cell) : Option Rat :=
  let vs := cs.filterMap cellNum?
  if vs.isEmpty then none else some (vs.sum / (vs.length : Rat))

/-- Lines 214-221: average final grade. -/
def gradeMean (df : DF) : Option Rat := meanQ (colVals df (lit "final_grade"))

/-- Lines 223-230: average attendance. -/
def attMean (df : DF) : Option Rat := meanQ (colVals df (lit "attendance_pct"))

/-- Lines 241-246: average course evaluation. -/
def evalMean (df : DF) : Option Rat := meanQ (colVals df (lit "course_evaluation"))

/-- Grade banding of lines 215-221 (`pd.notna` guard included). -/
def gradeContrib : Option Rat → Rat
  | none => 0
  | some g => if g < 4 then 30 else if g < 6 then 20 else if g < 7 then 10 else 0

/-- Attendance banding of lines 224-230. -/
def attContrib : Option Rat → Rat
  | none => 0
  | some a => if a < 50 then 25 else if a < 75 then 15 else if a < 85 then 5 else 0

/-- Evaluation banding of lines 242-246. -/
def evalContrib : Option Rat → Rat
  | none => 0
  | some e => if e ≤ 3 then 10 else if e ≤ 5 then 5 else 0

/-- `len(student_data)`. -/
def nRecords (df : DF) : Nat := df.rows.length

/-- Lines 232-234: overdue-payment rate. -/
def payRate (df : DF) : Rat :=
  if 0 < nRecords df then
    ((colVals df (lit "payment_status")).countP (fun c => c == .s (lit "atrasado")) : Rat) / (nRecords df : Rat)
  else 0

/-- Lines 237-238: failed-discipline rate. -/
def failRate (df : DF) : Rat :=
  if 0 < nRecords df then
    ((colVals df (lit "discipline_status")).countP (fun c => c == .s (lit "reprovado")) : Rat) / (nRecords df : Rat)
  else 0

/-- The accumulated `risk_score` of lines 212-246. -/
def risk_score (df : DF) : Rat :=
  gradeContrib (gradeMean df) + attContrib (attMean df) +
  payRate df * 20 + failRate df * 15 + evalContrib (evalMean df)

/-- `student_data.empty`. -/
def dfEmpty (df : DF) : Bool := df.rows.isEmpty || df.cols.isEmpty

/-- Python's binary `min` on floats. -/
def ratMin (a b : Rat) : Rat := if a ≤ b then a else b

/-- `calculate_churn_probability` from processing.py. -/
def calculate_churn_probability (df : DF) : Rat :=
  if dfEmpty df then 0 else ratMin (risk_score df / 100) 1

/-- `get_churn_risk_level` from processing.py. -/
def get_churn_risk_level (p : Rat) : PyStr :=
  if (7 : Rat) / 10 ≤ p then lit "high"
  else if (2 : Rat) / 5 ≤ p then lit "medium"
  else lit "low"

/-! ## Upload gate (main.py `handle_upload`, lines 156-200)

Before calling `process_university_data`, `handle_upload` checks the raw
column names against ten expected names with a bidirectional substring match
and rejects the upload only when more than five expected names are missing. -/

/-- `required_cols` of main.py. -/
def uploadRequired : List PyStr :=
  [lit "id_aluno", lit "curso", lit "periodo_letivo", lit "disciplina", lit "nota_final",
   lit "frequencia_pct", lit "status_pagamento", lit "status_disciplina",
   lit "nota_avaliacao_curso", lit "status_matricula"]

/-- `str(col).lower().strip()` then `replace('_', ' ').strip()`. -/
def gateClean (c : PyStr) : PyStr :=
  pyStrip ((pyStrip (pyLowerL c)).map (fun n => if n == 95 then 32 else n))

/-- `req_col.lower().replace('_', ' ').strip()`. -/
def reqNorm (r : PyStr) : PyStr :=
  pyStrip ((pyLowerL r).map (fun n => if n == 95 then 32 else n))

/-- One expected column name is found among the upload's columns. -/
def gateFound (dfCols : List PyStr) (req : PyStr) : Bool :=
  dfCols.any (fun c => hasInfix (reqNorm req) (gateClean c) || hasInfix (gateClean c) (reqNorm req))

/-- `missing_cols` of main.py. -/
def uploadMissing (dfCols : List PyStr) : List PyStr :=
  uploadRequired.filter (fun r => !(gateFound dfCols r))

/-- `if missing_cols and len(missing_cols) > 5:` — the upload is rejected with
the invalid-format message. -/
def uploadRejects (dfCols : List PyStr) : Bool :=
  decide (5 < (uploadMissing dfCols).length)

-- End-to-end sanity example: the one-row CSV scenario of spec §8.
def specScenarioDF : DF :=
  ⟨[lit "id_aluno", lit "curso", lit "periodo_letivo", lit "disciplina", lit "nota_final",
    lit "frequencia_pct", lit "status_pagamento", lit "status_disciplina",
    lit "nota_avaliacao_curso", lit "status_matricula"],
   [[.s (lit "A001"), .s (lit "Engenharia"), .s (lit "2024.1"), .s (lit "Cálculo"),
     .num 8, .num 90, .s (lit "pago"), .s (lit "aprovado"), .num 8, .s (lit "ativo")]]⟩

example :
    (process_university_data specScenarioDF).isOk = true ∧
    getCell (getOk (process_university_data specScenarioDF)).cols
      ((getOk (process_university_data specScenarioDF)).rows.headD [])
      (lit "student_id") = .s (lit "A001") ∧
    getCell (getOk (process_university_data specScenarioDF)).cols
      ((getOk (process_university_data specScenarioDF)).rows.headD [])
      (lit "is_passing") = .b true ∧
    getCell (getOk (process_university_data specScenarioDF)).cols
      ((getOk (process_university_data specScenarioDF)).rows.headD [])
      (lit "at_risk") = .b false ∧
    getCell (getOk (process_university_data specScenarioDF)).cols
      ((getOk (process_university_data specScenarioDF)).rows.headD [])
      (lit "admission_type") = .s (lit "vestibular") := by decide

/-! ## Concrete tables used in the claim theorems -/

/-- C1 scenario: three records, final grades 3/4/5, attendance 40/45/50, one
overdue payment, one failed discipline, course evaluation 2 everywhere. -/
def c1df : DF :=
  ⟨[lit "final_grade", lit "attendance_pct", lit "payment_status",
    lit "discipline_status", lit "course_evaluation"],
   [[.num 3, .num 40, .s (lit "atrasado"), .s (lit "reprovado"), .num 2],
    [.num 4, .num 45, .s (lit "pago"), .s (lit "aprovado"), .num 2],
    [.num 5, .num 50, .s (lit "pago"), .s (lit "aprovado"), .num 2]]⟩

/-- C2 scenario: a table whose student-id and course columns cannot be
resolved (they and the course-evaluation column are absent) while the seven
remaining expected columns are present. -/
def c2df : DF :=
  ⟨[lit "periodo_letivo", lit "disciplina", lit "nota_final", lit "frequencia_pct",
    lit "status_pagamento", lit "status_disciplina", lit "status_matricula"],
   [[.s (lit "2024.1"), .s (lit "Cálculo"), .num 8, .num 90,
     .s (lit "pago"), .s (lit "aprovado"), .s (lit "ativo")]]⟩

/-- C4 scenario: "Nota" and "Nota Final" both resolve to `final_grade`. -/
def c4df : DF :=
  ⟨[lit "Nota", lit "Nota Final", lit "ID Aluno"],
   [[.num 5, .na, .s (lit "A1")]]⟩

/-- A minimal table with no recognizable column, used to witness the
universally quantified claims about `process_university_data`. -/
def plainDF : DF := ⟨[lit "foo"], [[.na]]⟩

/-- A one-record student table with a known grade, used to witness the
monotonicity claim. -/
def oneRecDF : DF := ⟨[lit "final_grade"], [[.num 5]]⟩

/-- The thirteen canonical fields of a CanonicalRecord. -/
def canonicalFields : List PyStr :=
  requiredCols ++ [lit "admission_type", lit "is_passing", lit "at_risk"]

/-! ## Claim theorems -/

/-- Evaluation of the churn probability on the C1 scenario: the average grade
4.0 contributes 20 (band `< 6.0`), attendance 45 contributes 25, the overdue
rate 1/3 contributes 20/3, the failure rate 1/3 contributes 5, evaluation 2
contributes 10 — total 200/3, probability 2/3. -/
theorem c1_churn_eq : calculate_churn_probability c1df = 2 / 3 := by
  have hfg : colVals c1df (lit "final_grade") = [.num 3, .num 4, .num 5] := by decide
  have hat : colVals c1df (lit "attendance_pct") = [.num 40, .num 45, .num 50] := by decide
  have hce : colVals c1df (lit "course_evaluation") = [.num 2, .num 2, .num 2] := by decide
  have hp : (colVals c1df (lit "payment_status")).countP (fun c => c == .s (lit "atrasado")) = 1 := by decide
  have hd : (colVals c1df (lit "discipline_status")).countP (fun c => c == .s (lit "reprovado")) = 1 := by decide
  have hn : nRecords c1df = 3 := by decide
  have he : dfEmpty c1df = false := by decide
  have hm1 : meanQ [Cell.num 3, Cell.num 4, Cell.num 5] = some 4 := by
    simp [meanQ, cellNum?]
    norm_num
  have hm2 : meanQ [Cell.num 40, Cell.num 45, Cell.num 50] = some 45 := by
    simp [meanQ, cellNum?]
    norm_num
  have hm3 : meanQ [Cell.num 2, Cell.num 2, Cell.num 2] = some 2 := by
    simp [meanQ, cellNum?]
    norm_num
  rw [calculate_churn_probability, he]
  rw [risk_score, gradeMean, attMean, evalMean, payRate, failRate, hfg, hat, hce, hp, hd, hn,
    hm1, hm2, hm3]
  norm_num [gradeContrib, attContrib, evalContrib, ratMin]

/-- C1 counterexample: on the stated scenario (grades 3/4/5, attendance
40/45/50, one overdue payment, one failed discipline, evaluation 2) the code
does NOT return risk level "high". -/
theorem c1_scenario_not_high :
    get_churn_risk_level (calculate_churn_probability c1df) ≠ lit "high" := by
  rw [c1_churn_eq, get_churn_risk_level]
  norm_num
  decide

/-- C1 (amended): the scenario's churn probability is exactly 2/3 — the
average grade 4.0 falls in the `< 6.0` band (+20), not the `< 4.0` band — so
`get_churn_risk_level` yields "medium" (0.4 ≤ 2/3 < 0.7). -/
theorem c1_scenario_medium :
    calculate_churn_probability c1df = 2 / 3 ∧
    get_churn_risk_level (calculate_churn_probability c1df) = lit "medium" := by
  refine ⟨c1_churn_eq, ?_⟩
  rw [c1_churn_eq, get_churn_risk_level]
  norm_num

/-- C2 counterexample: a table whose identity columns (student id, course)
cannot be resolved is nevertheless accepted by the upload gate and processed
into a canonical table — no `SchemaResolutionError` (no such error exists in
the code) and no validation failure. -/
theorem c2_identity_missing_accepted :
    colIdx (resolvedCols c2df) (lit "student_id") = none ∧
    colIdx (resolvedCols c2df) (lit "course") = none ∧
    uploadRejects c2df.cols = false ∧
    (process_university_data c2df).isOk = true := by decide

/-- C2 (amended): the pipeline signals no error for unresolvable identity
columns.  The upload gate rejects only when more than five of the ten
expected column names are missing; with only the identity (and
course-evaluation) columns missing the file is accepted and
`process_university_data` returns a canonical table whose `student_id` and
`course` fields hold the `astype(str)` NaN sentinel "nan". -/
theorem c2_identity_missing_defaulted :
    (∀ dfCols : List PyStr, (uploadMissing dfCols).length ≤ 5 → uploadRejects dfCols = false) ∧
    uploadRejects c2df.cols = false ∧
    lit "student_id" ∈ (getOk (process_university_data c2df)).cols ∧
    lit "course" ∈ (getOk (process_university_data c2df)).cols ∧
    (∀ row ∈ (getOk (process_university_data c2df)).rows,
      getCell (getOk (process_university_data c2df)).cols row (lit "student_id") = .s (lit "nan") ∧
      getCell (getOk (process_university_data c2df)).cols row (lit "course") = .s (lit "nan")) := by
  refine ⟨?_, by decide, by decide, by decide, by decide⟩
  intro dfCols h
  simp only [uploadRejects, decide_eq_false_iff_not, not_lt]
  exact h

/-- Witness for the hypothesis of the first conjunct of
`c2_identity_missing_defaulted`, at the concrete column list of `c2df`. -/
theorem c2_identity_missing_defaulted_witness :
    (uploadMissing c2df.cols).length ≤ 5 ∧ uploadRejects c2df.cols = false :=
  ⟨by decide, c2_identity_missing_defaulted.1 c2df.cols (by decide)⟩

/-- C4: the code means to collapse two columns that both resolve to
`final_grade` by first non-missing value (lines 166-169), but the collapsed
Series is assigned to a duplicated label, so `process_university_data` raises
instead of returning any canonical table (`pd.to_numeric` receives a
two-column DataFrame; in pandas ≥ 1.3 the assignment itself raises). -/
theorem c4_duplicate_target_crashes :
    (resolvedCols c4df).count (lit "final_grade") = 2 ∧
    (process_university_data c4df).isOk = false := by decide

/-- Helper for C6: the payment keyword chain only ever returns one of the
three canonical payment values. -/
theorem paymentChain_range (nz : PyStr) :
    paymentChain nz = lit "pago" ∨ paymentChain nz = lit "atrasado" ∨
    paymentChain nz = lit "pendente" := by
  unfold paymentChain
  split_ifs <;> simp

/-- Helper for C6: the enrollment keyword chain only ever returns one of the
three canonical enrollment values. -/
theorem enrollmentChain_range (nz : PyStr) :
    enrollmentChain nz = lit "evadido" ∨ enrollmentChain nz = lit "trancado" ∨
    enrollmentChain nz = lit "ativo" := by
  unfold enrollmentChain
  split_ifs <;> simp

/-- Helper for C6: the discipline keyword chain only ever returns one of the
three canonical discipline values. -/
theorem disciplineChain_range (nz : PyStr) :
    disciplineChain nz = lit "aprovado" ∨ disciplineChain nz = lit "reprovado" ∨
    disciplineChain nz = lit "em_andamento" := by
  unfold disciplineChain
  split_ifs <;> simp

/-- Helper for C6: the admission keyword chain only ever returns one of the
four canonical admission values. -/
theorem admissionChain_range (nz : PyStr) :
    admissionChain nz = lit "transferencia_externa" ∨ admissionChain nz = lit "transferencia_interna" ∨
    admissionChain nz = lit "bolsista" ∨ admissionChain nz = lit "vestibular" := by
  unfold admissionChain
  split_ifs <;> simp

/-- C6: every categorical mapper is total into its canonical enumeration,
missing input maps to the field's default, unrecognized non-missing input maps
to the same default, and recognized keywords map to their canonical value; in
particular the three payment examples of the spec hold. -/
theorem mappers_total_with_defaults :
    map_payment_status Cell.na = lit "pendente" ∧
    map_enrollment_status Cell.na = lit "ativo" ∧
    map_discipline_status Cell.na = lit "em_andamento" ∧
    map_admission_type Cell.na = lit "vestibular" ∧
    map_payment_status (Cell.s (lit "quitado")) = lit "pago" ∧
    map_payment_status (Cell.s (lit "xyz_unknown")) = lit "pendente" ∧
    (∀ v : Cell, map_payment_status v = lit "pago" ∨ map_payment_status v = lit "atrasado" ∨
      map_payment_status v = lit "pendente") ∧
    (∀ v : Cell, map_enrollment_status v = lit "evadido" ∨ map_enrollment_status v = lit "trancado" ∨
      map_enrollment_status v = lit "ativo") ∧
    (∀ v : Cell, map_discipline_status v = lit "aprovado" ∨ map_discipline_status v = lit "reprovado" ∨
      map_discipline_status v = lit "em_andamento") ∧
    (∀ v : Cell, map_admission_type v = lit "transferencia_externa" ∨
      map_admission_type v = lit "transferencia_interna" ∨
      map_admission_type v = lit "bolsista" ∨ map_admission_type v = lit "vestibular") := by
  refine ⟨by decide, by decide, by decide, by decide, by decide, by decide, ?_, ?_, ?_, ?_⟩
  · intro v
    cases v with
    | na => simp [map_payment_status]
    | s w => exact paymentChain_range _
    | num q => exact paymentChain_range _
    | b bv => exact paymentChain_range _
  · intro v
    cases v with
    | na => simp [map_enrollment_status]
    | s w => exact enrollmentChain_range _
    | num q => exact enrollmentChain_range _
    | b bv => exact enrollmentChain_range _
  · intro v
    cases v with
    | na => simp [map_discipline_status]
    | s w => exact disciplineChain_range _
    | num q => exact disciplineChain_range _
    | b bv => exact disciplineChain_range _
  · intro v
    cases v with
    | na => simp [map_admission_type]
    | s w => exact admissionChain_range _
    | num q => exact admissionChain_range _
    | b bv => exact admissionChain_range _

/-- Helper: the grade band contribution lies in [0, 30]. -/
theorem gradeContrib_bounds (m : Option Rat) : 0 ≤ gradeContrib m ∧ gradeContrib m ≤ 30 := by
  rcases m with _ | g
  · simp [gradeContrib]
  · simp only [gradeContrib]
    split_ifs <;> norm_num

/-- Helper: the attendance band contribution lies in [0, 25]. -/
theorem attContrib_bounds (m : Option Rat) : 0 ≤ attContrib m ∧ attContrib m ≤ 25 := by
  rcases m with _ | a
  · simp [attContrib]
  · simp only [attContrib]
    split_ifs <;> norm_num

/-- Helper: the evaluation band contribution lies in [0, 10]. -/
theorem evalContrib_bounds (m : Option Rat) : 0 ≤ evalContrib m ∧ evalContrib m ≤ 10 := by
  rcases m with _ | e
  · simp [evalContrib]
  · simp only [evalContrib]
    split_ifs <;> norm_num

/-- Helper: a guarded count-over-total expression lies in [0, 1]. -/
theorem rateExpr_bounds (k n : Nat) (h : k ≤ n) :
    0 ≤ (if 0 < n then (k : Rat) / n else 0) ∧ (if 0 < n then (k : Rat) / n else 0) ≤ 1 := by
  split_ifs with hn
  · have hn2 : (0 : Rat) < n := by exact_mod_cast hn
    constructor
    · positivity
    · rw [div_le_one hn2]
      exact_mod_cast h
  · norm_num

/-- Helper: a column never has more cells than the table has rows. -/
theorem colVals_length_le (df : DF) (name : PyStr) : (colVals df name).length ≤ nRecords df := by
  unfold colVals nRecords
  cases colIdx df.cols name <;> simp

/-- Helper: the overdue-payment rate lies in [0, 1]. -/
theorem payRate_bounds (df : DF) : 0 ≤ payRate df ∧ payRate df ≤ 1 := by
  unfold payRate
  exact rateExpr_bounds _ _ (le_trans (List.countP_le_length _) (colVals_length_le df _))

/-- Helper: the failed-discipline rate lies in [0, 1]. -/
theorem failRate_bounds (df : DF) : 0 ≤ failRate df ∧ failRate df ≤ 1 := by
  unfold failRate
  exact rateExpr_bounds _ _ (le_trans (List.countP_le_length _) (colVals_length_le df _))

/-- Helper: the accumulated risk score lies in [0, 100]. -/
theorem risk_score_bounds (df : DF) : 0 ≤ risk_score df ∧ risk_score df ≤ 100 := by
  obtain ⟨g1, g2⟩ := gradeContrib_bounds (gradeMean df)
  obtain ⟨a1, a2⟩ := attContrib_bounds (attMean df)
  obtain ⟨e1, e2⟩ := evalContrib_bounds (evalMean df)
  obtain ⟨p1, p2⟩ := payRate_bounds df
  obtain ⟨f1, f2⟩ := failRate_bounds df
  have hp : payRate df * 20 ≤ 20 := by nlinarith
  have hf : failRate df * 15 ≤ 15 := by nlinarith
  have hp0 : 0 ≤ payRate df * 20 := by positivity
  have hf0 : 0 ≤ failRate df * 15 := by positivity
  unfold risk_score
  constructor <;> linarith

/-- C3: for every student record table — empty, all-missing or otherwise —
the churn probability returned by `calculate_churn_probability` lies in the
closed interval [0, 1]. -/
theorem churn_probability_in_unit_interval (df : DF) :
    0 ≤ calculate_churn_probability df ∧ calculate_churn_probability df ≤ 1 := by
  obtain ⟨r1, r2⟩ := risk_score_bounds df
  unfold calculate_churn_probability
  split_ifs with he
  · norm_num
  · unfold ratMin
    split_ifs with hle
    · refine ⟨by positivity, hle⟩
    · norm_num

/-- Helper: on an empty table every component of the risk score vanishes. -/
theorem risk_score_of_empty (df : DF) (h : dfEmpty df = true) : risk_score df = 0 := by
  rcases Bool.or_eq_true_iff.mp h with hr | hc
  · have hrows : df.rows = [] := by
      cases hx : df.rows with
      | nil => rfl
      | cons a l => rw [hx] at hr; simp [List.isEmpty] at hr
    have hcv : ∀ name, colVals df name = [] := by
      intro name
      unfold colVals
      cases colIdx df.cols name <;> simp [hrows]
    simp [risk_score, gradeMean, attMean, evalMean, payRate, failRate, hcv, meanQ,
      gradeContrib, attContrib, evalContrib, nRecords, hrows]
  · have hcols : df.cols = [] := by
      cases hx : df.cols with
      | nil => rfl
      | cons a l => rw [hx] at hc; simp [List.isEmpty] at hc
    have hcv : ∀ name, colVals df name = [] := by
      intro name
      simp [colVals, hcols, colIdx]
    simp [risk_score, gradeMean, attMean, evalMean, payRate, failRate, hcv, meanQ,
      gradeContrib, attContrib, evalContrib]

/-- C10: the accumulated risk score never exceeds 100 (its five contributions
are at most 30+25+20+15+10), so the returned probability is exactly
`risk_score / 100` and the `min(·, 1.0)` cap never changes the result. -/
theorem churn_probability_eq_score_div_100 (df : DF) :
    risk_score df ≤ 100 ∧ calculate_churn_probability df = risk_score df / 100 := by
  obtain ⟨r1, r2⟩ := risk_score_bounds df
  refine ⟨r2, ?_⟩
  unfold calculate_churn_probability
  split_ifs with he
  · rw [risk_score_of_empty df he]
    norm_num
  · unfold ratMin
    rw [if_pos]
    rw [div_le_one (by norm_num : (0:Rat) < 100)]
    exact r2

/-- Helper: the grade band contribution is antitone in the average grade. -/
theorem gradeContrib_anti (gs gt : Rat) (h : gs ≤ gt) :
    gradeContrib (some gt) ≤ gradeContrib (some gs) := by
  simp only [gradeContrib]
  split_ifs <;> linarith

/-- Helper: `ratMin` is monotone in its first argument. -/
theorem ratMin_mono_left (a c d : Rat) (h : a ≤ c) : ratMin a d ≤ ratMin c d := by
  unfold ratMin
  split_ifs <;> linarith

/-- C7: the churn probability is monotone in the risk inputs — between two
nonempty record tables that agree on all other aggregates, a lower average
final grade never lowers the score, and a higher overdue-payment rate never
lowers the score. -/
theorem churn_monotone_in_grade_and_payment :
    (∀ s t : DF, dfEmpty s = false → dfEmpty t = false →
      attMean s = attMean t → payRate s = payRate t → failRate s = failRate t →
      evalMean s = evalMean t →
      ∀ gs gt : Rat, gradeMean s = some gs → gradeMean t = some gt → gs ≤ gt →
      calculate_churn_probability t ≤ calculate_churn_probability s) ∧
    (∀ s t : DF, dfEmpty s = false → dfEmpty t = false →
      gradeMean s = gradeMean t → attMean s = attMean t → failRate s = failRate t →
      evalMean s = evalMean t → payRate t ≤ payRate s →
      calculate_churn_probability t ≤ calculate_churn_probability s) := by
  constructor
  · intro s t hs ht hatt hpay hfail heval gs gt hgs hgt hle
    have hrisk : risk_score t ≤ risk_score s := by
      unfold risk_score
      rw [hgs, hgt, hatt, hpay, hfail, heval]
      have := gradeContrib_anti gs gt hle
      linarith
    unfold calculate_churn_probability
    rw [hs, ht]
    simp only [Bool.false_eq_true, if_false]
    exact ratMin_mono_left _ _ _ ((div_le_div_iff_of_pos_right (by norm_num)).mpr hrisk)
  · intro s t hs ht hgrade hatt hfail heval hpay
    have hrisk : risk_score t ≤ risk_score s := by
      unfold risk_score
      rw [hgrade, hatt, hfail, heval]
      have h20 : payRate t * 20 ≤ payRate s * 20 := by nlinarith
      linarith
    unfold calculate_churn_probability
    rw [hs, ht]
    simp only [Bool.false_eq_true, if_false]
    exact ratMin_mono_left _ _ _ ((div_le_div_iff_of_pos_right (by norm_num)).mpr hrisk)

/-- Witness for `churn_monotone_in_grade_and_payment`: both parts applied to
the concrete one-record table (grade 5), discharging every hypothesis. -/
theorem churn_monotone_witness :
    gradeMean oneRecDF = some 5 ∧
    calculate_churn_probability oneRecDF ≤ calculate_churn_probability oneRecDF := by
  have hm : gradeMean oneRecDF = some 5 := by
    have : colVals oneRecDF (lit "final_grade") = [.num 5] := by decide
    rw [gradeMean, this]
    simp [meanQ, cellNum?]
  exact ⟨hm, churn_monotone_in_grade_and_payment.1 oneRecDF oneRecDF (by decide) (by decide)
    rfl rfl rfl rfl 5 5 hm hm le_rfl⟩

/-! ## Idempotence of the text normalizer (C8) -/

/-- A codepoint that every stage of `normList` leaves unchanged: non-space,
not the BOM, trivially NFKD-decomposable, not a combining mark, lowercase-
stable, and not a hyphen.  Every output codepoint of `normList` is good. -/
def GoodChar (m : Nat) : Prop :=
  isWs m = false ∧ m ≠ bomCode ∧ nfkd m = [m] ∧ isCombining m = false ∧
  pyLower m = m ∧ m ≠ 45

instance : DecidablePred GoodChar := fun m => by unfold GoodChar; infer_instance

/-- Helper: every decomposition-table entry has a key at 192 or above, a base
character with no decomposition of its own and distinct from the BOM, and a
genuinely combining mark. -/
theorem accTable_entry_facts :
    ∀ t ∈ accTable, 192 ≤ t.1 ∧ isCombining t.2.2 = true ∧
      accTable.find? (fun u => u.1 == t.2.1) = none ∧ t.2.1 ≠ bomCode := by decide

/-- Helper: codepoints below 192 decompose to themselves. -/
theorem nfkd_small (m : Nat) (h : m < 192) : nfkd m = [m] := by
  unfold nfkd
  have hf : accTable.find? (fun t => t.1 == m) = none := by
    rw [List.find?_eq_none]
    intro t ht
    have := (accTable_entry_facts t ht).1
    simp only [beq_iff_eq]
    omega
  rw [hf]

/-- Helper: codepoints below 768 are not combining marks. -/
theorem isCombining_small (m : Nat) (h : m < 768) : isCombining m = false := by
  simp only [isCombining, Bool.or_eq_false_iff, beq_eq_false_iff_ne, ne_eq]
  omega

/-- Helper: lowercasing is idempotent. -/
theorem pyLower_idem (n : Nat) : pyLower (pyLower n) = pyLower n := by
  unfold pyLower
  split_ifs <;> omega

/-- Helper: a non-combining codepoint drawn from the decomposition of a
non-BOM codepoint decomposes to itself and is not the BOM. -/
theorem nfkd_mem_props (m d : Nat) (hm : m ∈ nfkd d) (hc : isCombining m = false)
    (hb : d ≠ bomCode) : nfkd m = [m] ∧ m ≠ bomCode := by
  unfold nfkd at hm
  cases hfind : accTable.find? (fun t => t.1 == d) with
  | none =>
    rw [hfind] at hm
    simp only [List.mem_singleton] at hm
    subst hm
    refine ⟨?_, hb⟩
    unfold nfkd
    rw [hfind]
  | some t =>
    rw [hfind] at hm
    have ht := List.mem_of_find?_eq_some hfind
    obtain ⟨-, hcomb, hbase, hbom⟩ := accTable_entry_facts t ht
    simp only [List.mem_cons, List.mem_singleton, List.not_mem_nil, or_false] at hm
    rcases hm with rfl | rfl
    · exact ⟨by unfold nfkd; rw [hbase], hbom⟩
    · rw [hcomb] at hc
      cases hc

/-- Helper: lowercasing preserves trivial decomposition, non-combiningness and
non-BOM-ness. -/
theorem pyLower_keeps (n : Nat) (h1 : nfkd n = [n]) (h2 : isCombining n = false)
    (h3 : n ≠ bomCode) :
    nfkd (pyLower n) = [pyLower n] ∧ isCombining (pyLower n) = false ∧
    pyLower n ≠ bomCode := by
  unfold pyLower
  split_ifs with h
  · have hlt : n + 32 < 192 := by omega
    refine ⟨nfkd_small _ hlt, isCombining_small _ (by omega), ?_⟩
    unfold bomCode
    omega
  · exact ⟨h1, h2, h3⟩

/-- Helper: membership in a stripped string implies membership in the
original. -/
theorem mem_pyStrip (m : Nat) (l : PyStr) (h : m ∈ pyStrip l) : m ∈ l := by
  unfold pyStrip at h
  rw [List.mem_reverse] at h
  have h2 := (List.dropWhile_sublist _).subset h
  rw [List.mem_reverse] at h2
  exact (List.dropWhile_sublist _).subset h2

/-- Helper: characters of `remove_accents` output are non-combining members
of some input character's decomposition. -/
theorem mem_remove_accents (m : Nat) (l : PyStr) (h : m ∈ remove_accents l) :
    isCombining m = false ∧ ∃ d ∈ l, m ∈ nfkd d := by
  unfold remove_accents at h
  rw [List.mem_filter] at h
  obtain ⟨hmem, hcomb⟩ := h
  rw [List.mem_flatMap] at hmem
  obtain ⟨d, hd, hmd⟩ := hmem
  simp only [Bool.not_eq_eq_eq_not, Bool.not_true] at hcomb
  exact ⟨hcomb, d, hd, hmd⟩

/-- Helper: characters of `collapseWsAux` output are either the inserted
underscore or non-whitespace input characters. -/
theorem mem_collapseWsAux (m : Nat) (l : PyStr) :
    ∀ flag : Bool, m ∈ collapseWsAux flag l → m = 95 ∨ (m ∈ l ∧ isWs m = false) := by
  induction l with
  | nil => intro flag h; cases h
  | cons n rest ih =>
    intro flag h
    unfold collapseWsAux at h
    by_cases hw : isWs n
    · rw [if_pos hw] at h
      by_cases hflag : flag
      · rw [if_pos hflag] at h
        rcases ih true h with h95 | ⟨hmem, hws⟩
        · exact Or.inl h95
        · exact Or.inr ⟨List.mem_cons_of_mem _ hmem, hws⟩
      · rw [if_neg hflag] at h
        rcases List.mem_cons.mp h with rfl | h2
        · exact Or.inl rfl
        · rcases ih true h2 with h95 | ⟨hmem, hws⟩
          · exact Or.inl h95
          · exact Or.inr ⟨List.mem_cons_of_mem _ hmem, hws⟩
    · rw [if_neg hw] at h
      rcases List.mem_cons.mp h with rfl | h2
      · exact Or.inr ⟨List.mem_cons_self _ _, by simpa using hw⟩
      · rcases ih false h2 with h95 | ⟨hmem, hws⟩
        · exact Or.inl h95
        · exact Or.inr ⟨List.mem_cons_of_mem _ hmem, hws⟩

/-- Helper: every character of `normList l` is `GoodChar`. -/
theorem good_of_mem_normList (l : PyStr) : ∀ m ∈ normList l, GoodChar m := by
  intro m hm
  unfold normList collapseWs at hm
  rcases mem_collapseWsAux m _ false hm with rfl | ⟨hm2, hws⟩
  · decide
  · unfold dashToUnderscore at hm2
    rw [List.mem_map] at hm2
    obtain ⟨p, hp, hpm⟩ := hm2
    by_cases hp45 : p == 45
    · rw [if_pos hp45] at hpm
      subst hpm
      decide
    · rw [if_neg hp45] at hpm
      subst hpm
      unfold tabToSpace at hp
      rw [List.mem_map] at hp
      obtain ⟨q, hq, hqp⟩ := hp
      by_cases hq9 : q == 9
      · rw [if_pos hq9] at hqp
        subst hqp
        cases hws
      · rw [if_neg hq9] at hqp
        subst hqp
        unfold pyLowerL at hq
        rw [List.mem_map] at hq
        obtain ⟨r, hr, hrq⟩ := hq
        subst hrq
        obtain ⟨hcomb, d, hd, hmd⟩ := mem_remove_accents r _ hr
        have hdno : d ≠ bomCode := by
          have hdl := mem_pyStrip d _ hd
          unfold debom at hdl
          rw [List.mem_filter] at hdl
          simpa using hdl.2
        obtain ⟨htriv, hbom⟩ := nfkd_mem_props r d hmd hcomb hdno
        obtain ⟨k1, k2, k3⟩ := pyLower_keeps r htriv hcomb hbom
        refine ⟨hws, k3, k1, k2, pyLower_idem r, ?_⟩
        simpa using hp45

/-- Helper: mapping a function that fixes every member is the identity. -/
theorem map_id_of_mem (f : Nat → Nat) (l : PyStr) (h : ∀ n ∈ l, f n = n) : l.map f = l := by
  induction l with
  | nil => rfl
  | cons a rest ih =>
    rw [List.map_cons, h a (List.mem_cons_self a rest),
      ih (fun n hn => h n (List.mem_cons_of_mem a hn))]

/-- Helper: `debom` is the identity on BOM-free strings. -/
theorem debom_id (l : PyStr) (h : ∀ n ∈ l, n ≠ bomCode) : debom l = l := by
  unfold debom
  rw [List.filter_eq_self]
  intro n hn
  simpa using h n hn

/-- Helper: `dropWhile isWs` is the identity on whitespace-free strings. -/
theorem dropWhile_ws_id (l : PyStr) (h : ∀ n ∈ l, isWs n = false) :
    l.dropWhile (fun n => isWs n) = l := by
  cases l with
  | nil => rfl
  | cons a rest =>
    rw [List.dropWhile_cons, h a (List.mem_cons_self a rest)]
    simp

/-- Helper: `pyStrip` is the identity on whitespace-free strings. -/
theorem pyStrip_id (l : PyStr) (h : ∀ n ∈ l, isWs n = false) : pyStrip l = l := by
  unfold pyStrip
  rw [dropWhile_ws_id l h, dropWhile_ws_id l.reverse (fun n hn => h n (List.mem_reverse.mp hn)),
    List.reverse_reverse]

/-- Helper: `remove_accents` is the identity on strings of trivially
decomposing, non-combining characters. -/
theorem remove_accents_id (l : PyStr) (h : ∀ n ∈ l, nfkd n = [n] ∧ isCombining n = false) :
    remove_accents l = l := by
  unfold remove_accents
  have hbind : l.flatMap nfkd = l := by
    induction l with
    | nil => rfl
    | cons a rest ih =>
      rw [List.flatMap_cons, (h a (List.mem_cons_self a rest)).1,
        ih (fun n hn => h n (List.mem_cons_of_mem a hn))]
      rfl
  rw [hbind, List.filter_eq_self]
  intro n hn
  simpa using (h n hn).2

/-- Helper: `collapseWsAux` is the identity on whitespace-free strings. -/
theorem collapseWsAux_id (l : PyStr) (h : ∀ n ∈ l, isWs n = false) :
    ∀ flag : Bool, collapseWsAux flag l = l := by
  induction l with
  | nil => intro flag; rfl
  | cons a rest ih =>
    intro flag
    unfold collapseWsAux
    rw [if_neg (by rw [h a (List.mem_cons_self a rest)]; exact Bool.false_ne_true),
      ih (fun n hn => h n (List.mem_cons_of_mem a hn)) false]

/-- Helper: `normList` is the identity on strings of good characters. -/
theorem normList_id_of_good (l : PyStr) (h : ∀ n ∈ l, GoodChar n) : normList l = l := by
  unfold normList collapseWs
  rw [debom_id l (fun n hn => (h n hn).2.1),
    pyStrip_id l (fun n hn => (h n hn).1),
    remove_accents_id l (fun n hn => ⟨(h n hn).2.2.1, (h n hn).2.2.2.1⟩),
    show pyLowerL l = l from map_id_of_mem _ l (fun n hn => (h n hn).2.2.2.2.1),
    show tabToSpace l = l from map_id_of_mem _ l (fun n hn => by
      have h9 : n ≠ 9 := by
        intro h9
        subst h9
        exact absurd (h 9 hn).1 (by decide)
      simp [h9]),
    show dashToUnderscore l = l from map_id_of_mem _ l (fun n hn => by
      have h45 := (h n hn).2.2.2.2.2
      simp [h45]),
    collapseWsAux_id l (fun n hn => (h n hn).1) false]

/-- C8: `normalize_str` is idempotent on every input and accent-insensitive
("Café" and "cafe" normalize identically). -/
theorem normalize_str_idempotent_accent_insensitive :
    (∀ x : Option PyStr, normalize_str (some (normalize_str x)) = normalize_str x) ∧
    normalize_str (some (lit "Café")) = normalize_str (some (lit "cafe")) := by
  constructor
  · intro x
    cases x with
    | none => rfl
    | some l =>
      show normList (normList l) = normList l
      exact normList_id_of_good _ (good_of_mem_normList l)
  · decide

/-! ## Pipeline toolkit: cell lookup under the row transformations -/

/-- Helper: lookup on an exhausted row is missing. -/
theorem getCell_nil_row (cols : List PyStr) (name : PyStr) : getCell cols [] name = .na := by
  cases cols <;> rfl

/-- Helper: lookup of an absent label is missing. -/
theorem getCell_not_mem (cols : List PyStr) (row : List Cell) (name : PyStr)
    (h : name ∉ cols) : getCell cols row name = .na := by
  induction cols generalizing row with
  | nil => rfl
  | cons c cs ih =>
    cases row with
    | nil => rfl
    | cons x xs =>
      unfold getCell
      have hcm : ¬(c == name) = true := by
        simp only [beq_iff_eq]
        intro he
        exact h (List.mem_cons.mpr (Or.inl he.symm))
      rw [if_neg hcm, ih xs (fun hm => h (List.mem_cons_of_mem c hm))]

/-- Helper: broadcasting another label does not change a lookup. -/
theorem getCell_broadcast_ne (cols : List PyStr) (row : List Cell) (n m : PyStr)
    (f : Cell → Cell) (hne : m ≠ n) :
    getCell cols (broadcastCol cols n f row) m = getCell cols row m := by
  induction cols generalizing row with
  | nil => rfl
  | cons c cs ih =>
    cases row with
    | nil => rfl
    | cons x xs =>
      show getCell (c :: cs) ((if c == n then f x else x) :: broadcastCol cs n f xs) m = _
      unfold getCell
      by_cases hcm : c == m
      · rw [if_pos hcm, if_pos hcm, if_neg (by simp_all)]
      · rw [if_neg hcm, if_neg hcm, ih xs]

/-- Helper: broadcasting a present label rewrites its lookup, provided the
row covers all columns. -/
theorem getCell_broadcast_eq (cols : List PyStr) (row : List Cell) (n : PyStr)
    (f : Cell → Cell) (hmem : n ∈ cols) (hlen : cols.length ≤ row.length) :
    getCell cols (broadcastCol cols n f row) n = f (getCell cols row n) := by
  induction cols generalizing row with
  | nil => cases hmem
  | cons c cs ih =>
    cases row with
    | nil => simp at hlen
    | cons x xs =>
      show getCell (c :: cs) ((if c == n then f x else x) :: broadcastCol cs n f xs) n = _
      unfold getCell
      by_cases hcn : c == n
      · rw [if_pos hcn, if_pos hcn, if_pos hcn]
      · have hm2 : n ∈ cs := by
          rcases List.mem_cons.mp hmem with rfl | h2
          · simp at hcn
          · exact h2
        rw [if_neg hcn, if_neg hcn, ih xs hm2 (by simpa using Nat.le_of_succ_le_succ hlen)]

/-- Helper: appending columns and cells does not change the lookup of a
present label, provided the row covers all columns. -/
theorem getCell_append_mem (cols : List PyStr) (row : List Cell) (ds : List PyStr)
    (es : List Cell) (m : PyStr) (hmem : m ∈ cols) (hlen : cols.length ≤ row.length) :
    getCell (cols ++ ds) (row ++ es) m = getCell cols row m := by
  induction cols generalizing row with
  | nil => cases hmem
  | cons c cs ih =>
    cases row with
    | nil => simp at hlen
    | cons x xs =>
      show getCell (c :: (cs ++ ds)) (x :: (xs ++ es)) m = _
      unfold getCell
      by_cases hcm : c == m
      · rw [if_pos hcm, if_pos hcm]
      · have hm2 : m ∈ cs := by
          rcases List.mem_cons.mp hmem with rfl | h2
          · simp at hcm
          · exact h2
        rw [if_neg hcm, if_neg hcm, ih xs hm2 (by simpa using Nat.le_of_succ_le_succ hlen)]

/-- Helper: a newly appended column is looked up at the appended cell. -/
theorem getCell_append_self (cols : List PyStr) (row : List Cell) (m : PyStr) (c : Cell)
    (hmem : m ∉ cols) (hlen : row.length = cols.length) :
    getCell (cols ++ [m]) (row ++ [c]) m = c := by
  induction cols generalizing row with
  | nil =>
    rw [List.length_nil, List.length_eq_zero] at hlen
    subst hlen
    simp [getCell]
  | cons c1 cs ih =>
    cases row with
    | nil => simp at hlen
    | cons x xs =>
      show getCell (c1 :: (cs ++ [m])) (x :: (xs ++ [c])) m = _
      unfold getCell
      have hcm : ¬(c1 == m) = true := by
        simp only [beq_iff_eq]
        intro he
        exact hmem (List.mem_cons.mpr (Or.inl he.symm))
      rw [if_neg hcm, ih xs (fun hm => hmem (List.mem_cons_of_mem c1 hm)) (by simpa using hlen)]

/-- Helper: appending a different column leaves an absent label missing. -/
theorem getCell_append_other (cols : List PyStr) (row : List Cell) (m n : PyStr) (c : Cell)
    (hmem : m ∉ cols) (hne : m ≠ n) :
    getCell (cols ++ [n]) (row ++ [c]) m = .na := by
  have : m ∉ cols ++ [n] := by
    intro h
    rcases List.mem_append.mp h with h1 | h2
    · exact hmem h1
    · simp at h2
      exact hne h2
  exact getCell_not_mem _ _ _ this

/-! ## Pipeline toolkit: well-formedness and constant-column tracking -/

/-- Helper: broadcasting preserves row length up to the column count. -/
theorem broadcastCol_length (cols : List PyStr) (n : PyStr) (f : Cell → Cell) (row : List Cell) :
    (broadcastCol cols n f row).length = min cols.length row.length :=
  List.length_zipWith _ _ _

/-- The column named by every row of a table always reads the same value. -/
def ColConst (df : DF) (name : PyStr) (v : Cell) : Prop :=
  ∀ row ∈ df.rows, getCell df.cols row name = v

/-- Helper: `mapColCells` keeps the columns. -/
theorem mapColCells_cols (df : DF) (n : PyStr) (f : Cell → Cell) :
    (mapColCells df n f).cols = df.cols := rfl

/-- Helper: `mapColCells` preserves well-formedness. -/
theorem dfWf_mapColCells (df : DF) (n : PyStr) (f : Cell → Cell) (h : dfWf df) :
    dfWf (mapColCells df n f) := by
  intro r hr
  simp only [mapColCells, List.mem_map] at hr
  obtain ⟨r0, hr0, rfl⟩ := hr
  simp [broadcastCol_length, h r0 hr0, mapColCells_cols]

/-- Helper: rewriting another column keeps a constant column constant. -/
theorem colConst_mapColCells_ne (df : DF) (n m : PyStr) (f : Cell → Cell) (v : Cell)
    (hne : m ≠ n) (h : ColConst df m v) : ColConst (mapColCells df n f) m v := by
  intro row hr
  simp only [mapColCells, List.mem_map] at hr
  obtain ⟨r0, hr0, rfl⟩ := hr
  rw [mapColCells_cols, getCell_broadcast_ne _ _ _ _ _ hne, h r0 hr0]

/-- Helper: rewriting a present constant column maps its constant. -/
theorem colConst_mapColCells_eq (df : DF) (m : PyStr) (f : Cell → Cell) (v : Cell)
    (hmem : m ∈ df.cols) (hwf : dfWf df) (h : ColConst df m v) :
    ColConst (mapColCells df m f) m (f v) := by
  intro row hr
  simp only [mapColCells, List.mem_map] at hr
  obtain ⟨r0, hr0, rfl⟩ := hr
  rw [mapColCells_cols, getCell_broadcast_eq _ _ _ _ hmem (le_of_eq (hwf r0 hr0).symm), h r0 hr0]

/-- Helper: appending a fresh constant column makes it constant. -/
theorem colConst_appendFill_self (cols : List PyStr) (rows : List (List Cell)) (n : PyStr)
    (c : Cell) (hwf : dfWf ⟨cols, rows⟩) (hn : n ∉ cols) :
    ColConst ⟨cols ++ [n], rows.map (· ++ [c])⟩ n c := by
  intro row hr
  simp only [List.mem_map] at hr
  obtain ⟨r0, hr0, rfl⟩ := hr
  exact getCell_append_self _ _ _ _ hn (hwf r0 hr0)

/-- Helper: appending a fresh column keeps every other column's reads. -/
theorem colConst_appendFill_stable (cols : List PyStr) (rows : List (List Cell)) (n m : PyStr)
    (c v : Cell) (hwf : dfWf ⟨cols, rows⟩) (hne : m ≠ n)
    (h : ColConst ⟨cols, rows⟩ m v) : ColConst ⟨cols ++ [n], rows.map (· ++ [c])⟩ m v := by
  intro row hr
  simp only [List.mem_map] at hr
  obtain ⟨r0, hr0, rfl⟩ := hr
  by_cases hm : m ∈ cols
  · rw [getCell_append_mem _ _ _ _ _ hm (le_of_eq (hwf r0 hr0).symm)]
    exact h r0 hr0
  · rw [getCell_append_other _ _ _ _ _ hm hne]
    have := h r0 hr0
    rw [getCell_not_mem _ _ _ hm] at this
    exact this.symm ▸ rfl

/-- Helper: appending a column preserves well-formedness. -/
theorem dfWf_appendFill (cols : List PyStr) (rows : List (List Cell)) (n : PyStr) (c : Cell)
    (hwf : dfWf ⟨cols, rows⟩) : dfWf ⟨cols ++ [n], rows.map (· ++ [c])⟩ := by
  intro r hr
  simp only [List.mem_map] at hr
  obtain ⟨r0, hr0, rfl⟩ := hr
  simp [hwf r0 hr0]

/-- Helper: `fillNaCol` preserves well-formedness. -/
theorem dfWf_fillNaCol (df : DF) (n : PyStr) (hwf : dfWf df) : dfWf (fillNaCol df n) := by
  unfold fillNaCol
  split_ifs with h
  · exact hwf
  · exact dfWf_appendFill df.cols df.rows n .na hwf

/-- Helper: the filled column is present after `fillNaCol`. -/
theorem mem_fillNaCol_self (df : DF) (n : PyStr) : n ∈ (fillNaCol df n).cols := by
  unfold fillNaCol
  split_ifs with h
  · exact h
  · simp

/-- Helper: `fillNaCol` keeps existing columns. -/
theorem mem_fillNaCol_mono (df : DF) (n m : PyStr) (h : m ∈ df.cols) :
    m ∈ (fillNaCol df n).cols := by
  unfold fillNaCol
  split_ifs
  · exact h
  · exact List.mem_append_left _ h

/-- Helper: `fillNaCol` introduces no column other than its own. -/
theorem not_mem_fillNaCol (df : DF) (n m : PyStr) (hm : m ∉ df.cols) (hne : m ≠ n) :
    m ∉ (fillNaCol df n).cols := by
  unfold fillNaCol
  split_ifs
  · exact hm
  · intro hmem
    rcases List.mem_append.mp hmem with h1 | h2
    · exact hm h1
    · simp at h2
      exact hne h2

/-- Helper: filling a missing column yields a constant-NaN column. -/
theorem colConst_fillNaCol_self (df : DF) (n : PyStr) (hwf : dfWf df) (hn : n ∉ df.cols) :
    ColConst (fillNaCol df n) n .na := by
  unfold fillNaCol
  rw [if_neg hn]
  exact colConst_appendFill_self df.cols df.rows n .na hwf hn

/-- Helper: `fillNaCol` of another column keeps a constant column constant. -/
theorem colConst_fillNaCol_stable (df : DF) (n m : PyStr) (v : Cell) (hwf : dfWf df)
    (hne : m ≠ n) (h : ColConst df m v) : ColConst (fillNaCol df n) m v := by
  unfold fillNaCol
  split_ifs with hmem
  · exact h
  · exact colConst_appendFill_stable df.cols df.rows n m .na v hwf hne h

/-- Helper: a fold of `fillNaCol` preserves well-formedness. -/
theorem dfWf_foldl_fill (L : List PyStr) (df : DF) (hwf : dfWf df) :
    dfWf (L.foldl fillNaCol df) := by
  induction L generalizing df with
  | nil => exact hwf
  | cons a rest ih => exact ih _ (dfWf_fillNaCol df a hwf)

/-- Helper: a fold of `fillNaCol` keeps existing columns. -/
theorem foldl_fill_mem_mono (L : List PyStr) (df : DF) (m : PyStr) (h : m ∈ df.cols) :
    m ∈ (L.foldl fillNaCol df).cols := by
  induction L generalizing df with
  | nil => exact h
  | cons a rest ih => exact ih _ (mem_fillNaCol_mono df a m h)

/-- Helper: a fold of `fillNaCol` contains every filled name. -/
theorem foldl_fill_mem_of_elem (L : List PyStr) (df : DF) (m : PyStr) (h : m ∈ L) :
    m ∈ (L.foldl fillNaCol df).cols := by
  induction L generalizing df with
  | nil => cases h
  | cons a rest ih =>
    rcases List.mem_cons.mp h with rfl | h2
    · exact foldl_fill_mem_mono rest _ m (mem_fillNaCol_self df m)
    · exact ih _ h2

/-- Helper: a fold of `fillNaCol` introduces only its own names. -/
theorem foldl_fill_not_mem (L : List PyStr) (df : DF) (m : PyStr) (hm : m ∉ df.cols)
    (hL : m ∉ L) : m ∉ (L.foldl fillNaCol df).cols := by
  induction L generalizing df with
  | nil => exact hm
  | cons a rest ih =>
    exact ih _ (not_mem_fillNaCol df a m hm (fun he => hL (he ▸ List.mem_cons_self a rest)))
      (fun h2 => hL (List.mem_cons_of_mem a h2))

/-- Helper: a fold of `fillNaCol` keeps a present constant column constant. -/
theorem colConst_foldl_fill_stable (L : List PyStr) (df : DF) (m : PyStr) (v : Cell)
    (hwf : dfWf df) (hmem : m ∈ df.cols) (h : ColConst df m v) :
    ColConst (L.foldl fillNaCol df) m v := by
  induction L generalizing df with
  | nil => exact h
  | cons a rest ih =>
    by_cases hma : m = a
    · subst hma
      have : fillNaCol df m = df := by unfold fillNaCol; rw [if_pos hmem]
      rw [List.foldl_cons, this]
      exact ih df hwf hmem h
    · exact ih _ (dfWf_fillNaCol df a hwf) (mem_fillNaCol_mono df a m hmem)
        (colConst_fillNaCol_stable df a m v hwf hma h)

/-- Helper: folding `fillNaCol` over a list containing a missing name yields a
constant-NaN column for it. -/
theorem colConst_foldl_fill (L : List PyStr) (df : DF) (m : PyStr) (hwf : dfWf df)
    (hL : m ∈ L) (hm : m ∉ df.cols) : ColConst (L.foldl fillNaCol df) m .na := by
  induction L generalizing df with
  | nil => cases hL
  | cons a rest ih =>
    rcases List.mem_cons.mp hL with rfl | h2
    · exact colConst_foldl_fill_stable rest _ m .na (dfWf_fillNaCol df m hwf)
        (mem_fillNaCol_self df m) (colConst_fillNaCol_self df m hwf hm)
    · by_cases hma : m = a
      · subst hma
        exact colConst_foldl_fill_stable rest _ m .na (dfWf_fillNaCol df m hwf)
          (mem_fillNaCol_self df m) (colConst_fillNaCol_self df m hwf hm)
      · exact ih _ (dfWf_fillNaCol df a hwf) h2 (not_mem_fillNaCol df a m hm hma)

/-- Helper: `admissionStep` preserves well-formedness. -/
theorem dfWf_admissionStep (df : DF) (hwf : dfWf df) : dfWf (admissionStep df) := by
  unfold admissionStep
  split_ifs with h
  · exact hwf
  · exact dfWf_appendFill df.cols df.rows _ _ hwf

/-- Helper: the admission column is present after `admissionStep`. -/
theorem mem_admissionStep_self (df : DF) : lit "admission_type" ∈ (admissionStep df).cols := by
  unfold admissionStep
  split_ifs with h
  · exact h
  · simp

/-- Helper: `admissionStep` keeps existing columns. -/
theorem mem_admissionStep_mono (df : DF) (m : PyStr) (h : m ∈ df.cols) :
    m ∈ (admissionStep df).cols := by
  unfold admissionStep
  split_ifs
  · exact h
  · exact List.mem_append_left _ h

/-- Helper: a missing admission column is filled with the "vestibular"
constant. -/
theorem colConst_admissionStep_self (df : DF) (hwf : dfWf df)
    (hn : lit "admission_type" ∉ df.cols) :
    ColConst (admissionStep df) (lit "admission_type") (.s (lit "vestibular")) := by
  unfold admissionStep
  rw [if_neg hn]
  exact colConst_appendFill_self df.cols df.rows _ _ hwf hn

/-- Helper: `admissionStep` keeps other constant columns constant. -/
theorem colConst_admissionStep_stable (df : DF) (m : PyStr) (v : Cell) (hwf : dfWf df)
    (hne : m ≠ lit "admission_type") (h : ColConst df m v) :
    ColConst (admissionStep df) m v := by
  unfold admissionStep
  split_ifs with hmem
  · exact h
  · exact colConst_appendFill_stable df.cols df.rows _ m _ v hwf hne h

/-- Helper: column renaming steps preserve well-formedness. -/
theorem dfWf_normCols (df : DF) (hwf : dfWf df) : dfWf (normColsStep df) := by
  intro r hr
  simp only [normColsStep] at hr ⊢
  rw [List.length_map]
  exact hwf r hr

/-- Helper: `renameStep` preserves well-formedness. -/
theorem dfWf_rename (df : DF) (hwf : dfWf df) : dfWf (renameStep df) := by
  intro r hr
  simp only [renameStep] at hr ⊢
  rw [List.length_map]
  exact hwf r hr

/-- Helper: `collapseTarget` keeps the columns. -/
theorem collapseTarget_cols (df : DF) (n : PyStr) : (collapseTarget df n).cols = df.cols := by
  unfold collapseTarget
  split_ifs <;> rfl

/-- Helper: `collapseStep` keeps the columns. -/
theorem collapseStep_cols (df : DF) : (collapseStep df).cols = df.cols := by
  unfold collapseStep
  rw [collapseTarget_cols, collapseTarget_cols, collapseTarget_cols]

/-- Helper: `collapseTarget` preserves well-formedness. -/
theorem dfWf_collapseTarget (df : DF) (n : PyStr) (hwf : dfWf df) :
    dfWf (collapseTarget df n) := by
  unfold collapseTarget
  split_ifs with h
  · intro r hr
    simp only [List.mem_map] at hr
    obtain ⟨r0, hr0, rfl⟩ := hr
    simp [broadcastCol_length, hwf r0 hr0]
  · exact hwf

/-- Helper: `collapseStep` preserves well-formedness. -/
theorem dfWf_collapseStep (df : DF) (hwf : dfWf df) : dfWf (collapseStep df) :=
  dfWf_collapseTarget _ _ (dfWf_collapseTarget _ _ (dfWf_collapseTarget _ _ hwf))

/-- Helper: `astypeStep` keeps the columns. -/
theorem astypeStep_cols (df : DF) : (astypeStep df).cols = df.cols := rfl

/-- Helper: `astypeStep` preserves well-formedness. -/
theorem dfWf_astypeStep (df : DF) (hwf : dfWf df) : dfWf (astypeStep df) :=
  dfWf_mapColCells _ _ _ (dfWf_mapColCells _ _ _ (dfWf_mapColCells _ _ _ (dfWf_mapColCells _ _ _ hwf)))

/-- Helper: `astypeStep` keeps a constant column constant when it is none of
the four string-converted columns. -/
theorem colConst_astypeStep_ne (df : DF) (m : PyStr) (v : Cell)
    (h1 : m ≠ lit "student_id") (h2 : m ≠ lit "course") (h3 : m ≠ lit "semester")
    (h4 : m ≠ lit "discipline") (h : ColConst df m v) : ColConst (astypeStep df) m v :=
  colConst_mapColCells_ne _ _ _ _ _ h4
    (colConst_mapColCells_ne _ _ _ _ _ h3
      (colConst_mapColCells_ne _ _ _ _ _ h2
        (colConst_mapColCells_ne _ _ _ _ _ h1 h)))

/-- Helper: `setColWith` preserves well-formedness. -/
theorem dfWf_setColWith (df : DF) (n : PyStr) (f : List Cell → Cell) (hwf : dfWf df) :
    dfWf (setColWith df n f) := by
  unfold setColWith
  split_ifs with h
  · intro r hr
    simp only [List.mem_map] at hr
    obtain ⟨r0, hr0, rfl⟩ := hr
    simp [broadcastCol_length, hwf r0 hr0]
  · intro r hr
    simp only [List.mem_map] at hr
    obtain ⟨r0, hr0, rfl⟩ := hr
    simp [hwf r0 hr0]

/-- Helper: the assigned column is present after `setColWith`. -/
theorem mem_setColWith_self (df : DF) (n : PyStr) (f : List Cell → Cell) :
    n ∈ (setColWith df n f).cols := by
  unfold setColWith
  split_ifs with h
  · exact h
  · simp

/-- Helper: `setColWith` keeps existing columns. -/
theorem mem_setColWith_mono (df : DF) (n m : PyStr) (f : List Cell → Cell)
    (h : m ∈ df.cols) : m ∈ (setColWith df n f).cols := by
  unfold setColWith
  split_ifs
  · exact h
  · exact List.mem_append_left _ h

/-- Helper: the rows of `setColWith` arise from the input rows by a single
row transformation whose lookups are the assigned series on the assigned
label and the old reads elsewhere. -/
theorem setColWith_rows_form (df : DF) (n : PyStr) (f : List Cell → Cell) :
    ∃ g : List Cell → List Cell, (setColWith df n f).rows = df.rows.map g ∧
      ∀ row : List Cell, row.length = df.cols.length →
        getCell (setColWith df n f).cols (g row) n = f row ∧
        ∀ m : PyStr, m ≠ n → getCell (setColWith df n f).cols (g row) m = getCell df.cols row m := by
  unfold setColWith
  split_ifs with h
  · refine ⟨fun row => broadcastCol df.cols n (fun _ => f row) row, rfl, ?_⟩
    intro row hlen
    constructor
    · exact getCell_broadcast_eq _ _ _ _ h (le_of_eq hlen.symm)
    · intro m hm
      exact getCell_broadcast_ne _ _ _ _ _ hm
  · refine ⟨fun row => row ++ [f row], rfl, ?_⟩
    intro row hlen
    constructor
    · exact getCell_append_self _ _ _ _ h hlen
    · intro m hm
      by_cases hmem : m ∈ df.cols
      · exact getCell_append_mem _ _ _ _ _ hmem (le_of_eq hlen.symm)
      · rw [getCell_append_other _ _ _ _ _ hmem hm, getCell_not_mem _ _ _ hmem]

/-- Helper: a successful `numericCol` is the cellwise coercion. -/
theorem numericCol_ok_inv (df : DF) (name : PyStr) (d : DF)
    (h : numericCol df name = .ok d) : d = mapColCells df name toNumericCell := by
  unfold numericCol at h
  split_ifs at h with hc
  all_goals cases h
  all_goals rfl

/-- Helper: a successful `numericStep` is the three cellwise coercions. -/
theorem numericStep_ok_inv (df : DF) (d : DF) (h : numericStep df = .ok d) :
    d = mapColCells (mapColCells (mapColCells df (lit "final_grade") toNumericCell)
      (lit "attendance_pct") toNumericCell) (lit "course_evaluation") toNumericCell := by
  unfold numericStep at h
  cases h1 : numericCol df (lit "final_grade") with
  | error e => rw [h1] at h; cases h
  | ok d1 =>
    rw [h1] at h
    dsimp only at h
    cases h2 : numericCol d1 (lit "attendance_pct") with
    | error e => rw [h2] at h; cases h
    | ok d2 =>
      rw [h2] at h
      dsimp only at h
      rw [numericCol_ok_inv _ _ _ h, numericCol_ok_inv _ _ _ h2, numericCol_ok_inv _ _ _ h1]

/-- Helper: a successful `applyMapper` is the cellwise mapping. -/
theorem applyMapper_ok_inv (df : DF) (name : PyStr) (mapper : Cell → PyStr) (d : DF)
    (h : applyMapper df name mapper = .ok d) :
    d = mapColCells df name (fun c => .s (mapper c)) := by
  unfold applyMapper at h
  split_ifs at h with hc
  all_goals cases h
  all_goals rfl

/-- Helper: a successful `mapperStep` is the four cellwise mappings. -/
theorem mapperStep_ok_inv (df : DF) (d : DF) (h : mapperStep df = .ok d) :
    d = mapColCells (mapColCells (mapColCells (mapColCells df
      (lit "admission_type") (fun c => .s (map_admission_type c)))
      (lit "enrollment_status") (fun c => .s (map_enrollment_status c)))
      (lit "discipline_status") (fun c => .s (map_discipline_status c)))
      (lit "payment_status") (fun c => .s (map_payment_status c)) := by
  unfold mapperStep at h
  cases h1 : applyMapper df (lit "admission_type") map_admission_type with
  | error e => rw [h1] at h; cases h
  | ok d1 =>
    rw [h1] at h
    dsimp only at h
    cases h2 : applyMapper d1 (lit "enrollment_status") map_enrollment_status with
    | error e => rw [h2] at h; cases h
    | ok d2 =>
      rw [h2] at h
      dsimp only at h
      cases h3 : applyMapper d2 (lit "discipline_status") map_discipline_status with
      | error e => rw [h3] at h; cases h
      | ok d3 =>
        rw [h3] at h
        dsimp only at h
        rw [applyMapper_ok_inv _ _ _ _ h, applyMapper_ok_inv _ _ _ _ h3,
          applyMapper_ok_inv _ _ _ _ h2, applyMapper_ok_inv _ _ _ _ h1]

/-- Helper: inversion of a successful pipeline run into its three phases. -/
theorem process_ok_inv (df out : DF) (h : process_university_data df = .ok out) :
    ∃ d d2 : DF,
      numericStep (preStep df) = .ok d ∧
      mapperStep d = .ok d2 ∧ out = flagsStep d2 := by
  unfold process_university_data at h
  generalize hX : numericStep (preStep df) = X at h ⊢
  cases X with
  | error e => cases h
  | ok d =>
    dsimp only at h
    cases hY : mapperStep d with
    | error e => rw [hY] at h; cases h
    | ok d2 =>
      rw [hY] at h
      injection h with h3
      exact ⟨d, d2, rfl, hY, h3.symm⟩

/-- Helper: assigning another column keeps a constant column constant. -/
theorem colConst_setColWith_ne (df : DF) (n m : PyStr) (f : List Cell → Cell) (v : Cell)
    (hwf : dfWf df) (hne : m ≠ n) (h : ColConst df m v) : ColConst (setColWith df n f) m v := by
  obtain ⟨g, hrows, hprop⟩ := setColWith_rows_form df n f
  intro row hr
  rw [hrows] at hr
  simp only [List.mem_map] at hr
  obtain ⟨r0, hr0, rfl⟩ := hr
  rw [(hprop r0 (hwf r0 hr0)).2 m hne]
  exact h r0 hr0

/-- Helper: well-formedness of the pre-numeric phase. -/
theorem dfWf_preStep (df : DF) (hwf : dfWf df) : dfWf (preStep df) := by
  unfold preStep
  refine dfWf_astypeStep _ (dfWf_admissionStep _ ?_)
  show dfWf (requiredCols.foldl fillNaCol (collapseStep (renameStep (normColsStep df))))
  exact dfWf_foldl_fill _ _ (dfWf_collapseStep _ (dfWf_rename _ (dfWf_normCols _ hwf)))

/-- Helper: every required column and the admission column are present in the
pre-numeric phase output. -/
theorem preStep_mem (df : DF) :
    (∀ m ∈ requiredCols, m ∈ (preStep df).cols) ∧ lit "admission_type" ∈ (preStep df).cols := by
  unfold preStep
  rw [astypeStep_cols]
  constructor
  · intro m hm
    refine mem_admissionStep_mono _ _ ?_
    show m ∈ (requiredCols.foldl fillNaCol (collapseStep (renameStep (normColsStep df)))).cols
    exact foldl_fill_mem_of_elem _ _ _ hm
  · exact mem_admissionStep_self _

/-- Helper: a required column absent from the resolved source columns is
constant through the pre-numeric phase — missing (`Cell.na`) for the numeric
and categorical required fields. -/
theorem preStep_colConst_na (df : DF) (m : PyStr) (hwf : dfWf df) (hm : m ∈ requiredCols)
    (habs : m ∉ resolvedCols df)
    (h1 : m ≠ lit "admission_type") (h2 : m ≠ lit "student_id") (h3 : m ≠ lit "course")
    (h4 : m ≠ lit "semester") (h5 : m ≠ lit "discipline") :
    ColConst (preStep df) m .na := by
  have hwfX : dfWf (collapseStep (renameStep (normColsStep df))) :=
    dfWf_collapseStep _ (dfWf_rename _ (dfWf_normCols _ hwf))
  have habsX : m ∉ (collapseStep (renameStep (normColsStep df))).cols := by
    rw [collapseStep_cols]
    exact habs
  have hreq : ColConst (requiredStep (collapseStep (renameStep (normColsStep df)))) m .na := by
    show ColConst (requiredCols.foldl fillNaCol (collapseStep (renameStep (normColsStep df)))) m .na
    exact colConst_foldl_fill _ _ _ hwfX hm habsX
  have hwf3 : dfWf (requiredStep (collapseStep (renameStep (normColsStep df)))) := by
    show dfWf (requiredCols.foldl fillNaCol (collapseStep (renameStep (normColsStep df))))
    exact dfWf_foldl_fill _ _ hwfX
  unfold preStep
  exact colConst_astypeStep_ne _ _ _ h2 h3 h4 h5
    (colConst_admissionStep_stable _ _ _ hwf3 h1 hreq)

/-- Helper: an absent admission column is the "vestibular" constant through
the pre-numeric phase. -/
theorem preStep_colConst_admission (df : DF) (hwf : dfWf df)
    (habs : lit "admission_type" ∉ resolvedCols df) :
    ColConst (preStep df) (lit "admission_type") (.s (lit "vestibular")) := by
  have hwfX : dfWf (collapseStep (renameStep (normColsStep df))) :=
    dfWf_collapseStep _ (dfWf_rename _ (dfWf_normCols _ hwf))
  have habsR : lit "admission_type" ∉ (requiredStep (collapseStep (renameStep (normColsStep df)))).cols := by
    show lit "admission_type" ∉ (requiredCols.foldl fillNaCol (collapseStep (renameStep (normColsStep df)))).cols
    refine foldl_fill_not_mem _ _ _ ?_ (by decide)
    rw [collapseStep_cols]
    exact habs
  have hwf3 : dfWf (requiredStep (collapseStep (renameStep (normColsStep df)))) := by
    show dfWf (requiredCols.foldl fillNaCol (collapseStep (renameStep (normColsStep df))))
    exact dfWf_foldl_fill _ _ hwfX
  unfold preStep
  exact colConst_astypeStep_ne _ _ _ (by decide) (by decide) (by decide) (by decide)
    (colConst_admissionStep_self _ hwf3 habsR)

/-- Helper: the numeric-coercion phase keeps constant any column that is none
of the three numeric targets. -/
theorem colConst_numericPhase_ne (P : DF) (m : PyStr) (v : Cell)
    (h1 : m ≠ lit "final_grade") (h2 : m ≠ lit "attendance_pct")
    (h3 : m ≠ lit "course_evaluation") (h : ColConst P m v) :
    ColConst (mapColCells (mapColCells (mapColCells P (lit "final_grade") toNumericCell)
      (lit "attendance_pct") toNumericCell) (lit "course_evaluation") toNumericCell) m v :=
  colConst_mapColCells_ne _ _ _ _ _ h3
    (colConst_mapColCells_ne _ _ _ _ _ h2 (colConst_mapColCells_ne _ _ _ _ _ h1 h))

/-- Helper: the categorical-mapping phase keeps constant any column that is
none of the four mapped targets. -/
theorem colConst_mapperPhase_ne (d : DF) (m : PyStr) (v : Cell)
    (h1 : m ≠ lit "admission_type") (h2 : m ≠ lit "enrollment_status")
    (h3 : m ≠ lit "discipline_status") (h4 : m ≠ lit "payment_status")
    (h : ColConst d m v) :
    ColConst (mapColCells (mapColCells (mapColCells (mapColCells d
      (lit "admission_type") (fun c => .s (map_admission_type c)))
      (lit "enrollment_status") (fun c => .s (map_enrollment_status c)))
      (lit "discipline_status") (fun c => .s (map_discipline_status c)))
      (lit "payment_status") (fun c => .s (map_payment_status c))) m v :=
  colConst_mapColCells_ne _ _ _ _ _ h4
    (colConst_mapColCells_ne _ _ _ _ _ h3
      (colConst_mapColCells_ne _ _ _ _ _ h2 (colConst_mapColCells_ne _ _ _ _ _ h1 h)))

/-- Helper: the numeric phase coerces a constant `final_grade` column. -/
theorem colConst_numeric_fg (P : DF) (hwfP : dfWf P) (hm : lit "final_grade" ∈ P.cols)
    (v : Cell) (h : ColConst P (lit "final_grade") v) :
    ColConst (mapColCells (mapColCells (mapColCells P (lit "final_grade") toNumericCell)
      (lit "attendance_pct") toNumericCell) (lit "course_evaluation") toNumericCell)
      (lit "final_grade") (toNumericCell v) :=
  colConst_mapColCells_ne _ _ _ _ _ (by decide)
    (colConst_mapColCells_ne _ _ _ _ _ (by decide)
      (colConst_mapColCells_eq P (lit "final_grade") toNumericCell v hm hwfP h))

/-- Helper: the numeric phase coerces a constant `attendance_pct` column. -/
theorem colConst_numeric_att (P : DF) (hwfP : dfWf P) (hm : lit "attendance_pct" ∈ P.cols)
    (v : Cell) (h : ColConst P (lit "attendance_pct") v) :
    ColConst (mapColCells (mapColCells (mapColCells P (lit "final_grade") toNumericCell)
      (lit "attendance_pct") toNumericCell) (lit "course_evaluation") toNumericCell)
      (lit "attendance_pct") (toNumericCell v) :=
  colConst_mapColCells_ne _ _ _ _ _ (by decide)
    (colConst_mapColCells_eq (mapColCells P (lit "final_grade") toNumericCell)
      (lit "attendance_pct") toNumericCell v hm (dfWf_mapColCells _ _ _ hwfP)
      (colConst_mapColCells_ne _ _ _ _ _ (by decide) h))

/-- Helper: the numeric phase coerces a constant `course_evaluation` column. -/
theorem colConst_numeric_ce (P : DF) (hwfP : dfWf P) (hm : lit "course_evaluation" ∈ P.cols)
    (v : Cell) (h : ColConst P (lit "course_evaluation") v) :
    ColConst (mapColCells (mapColCells (mapColCells P (lit "final_grade") toNumericCell)
      (lit "attendance_pct") toNumericCell) (lit "course_evaluation") toNumericCell)
      (lit "course_evaluation") (toNumericCell v) :=
  colConst_mapColCells_eq (mapColCells (mapColCells P (lit "final_grade") toNumericCell)
      (lit "attendance_pct") toNumericCell) (lit "course_evaluation") toNumericCell v hm
    (dfWf_mapColCells _ _ _ (dfWf_mapColCells _ _ _ hwfP))
    (colConst_mapColCells_ne _ _ _ _ _ (by decide)
      (colConst_mapColCells_ne _ _ _ _ _ (by decide) h))

/-- Helper: the mapper phase maps a constant `admission_type` column. -/
theorem colConst_mapper_adm (N : DF) (hwfN : dfWf N) (hm : lit "admission_type" ∈ N.cols)
    (v : Cell) (h : ColConst N (lit "admission_type") v) :
    ColConst (mapColCells (mapColCells (mapColCells (mapColCells N
      (lit "admission_type") (fun c => .s (map_admission_type c)))
      (lit "enrollment_status") (fun c => .s (map_enrollment_status c)))
      (lit "discipline_status") (fun c => .s (map_discipline_status c)))
      (lit "payment_status") (fun c => .s (map_payment_status c)))
      (lit "admission_type") (.s (map_admission_type v)) :=
  colConst_mapColCells_ne _ _ _ _ _ (by decide)
    (colConst_mapColCells_ne _ _ _ _ _ (by decide)
      (colConst_mapColCells_ne _ _ _ _ _ (by decide)
        (colConst_mapColCells_eq N (lit "admission_type")
          (fun c => .s (map_admission_type c)) v hm hwfN h)))

/-- Helper: the mapper phase maps a constant `enrollment_status` column. -/
theorem colConst_mapper_enr (N : DF) (hwfN : dfWf N) (hm : lit "enrollment_status" ∈ N.cols)
    (v : Cell) (h : ColConst N (lit "enrollment_status") v) :
    ColConst (mapColCells (mapColCells (mapColCells (mapColCells N
      (lit "admission_type") (fun c => .s (map_admission_type c)))
      (lit "enrollment_status") (fun c => .s (map_enrollment_status c)))
      (lit "discipline_status") (fun c => .s (map_discipline_status c)))
      (lit "payment_status") (fun c => .s (map_payment_status c)))
      (lit "enrollment_status") (.s (map_enrollment_status v)) :=
  colConst_mapColCells_ne _ _ _ _ _ (by decide)
    (colConst_mapColCells_ne _ _ _ _ _ (by decide)
      (colConst_mapColCells_eq (mapColCells N (lit "admission_type")
          (fun c => .s (map_admission_type c))) (lit "enrollment_status")
          (fun c => .s (map_enrollment_status c)) v hm (dfWf_mapColCells _ _ _ hwfN)
        (colConst_mapColCells_ne _ _ _ _ _ (by decide) h)))

/-- Helper: the mapper phase maps a constant `discipline_status` column. -/
theorem colConst_mapper_dis (N : DF) (hwfN : dfWf N) (hm : lit "discipline_status" ∈ N.cols)
    (v : Cell) (h : ColConst N (lit "discipline_status") v) :
    ColConst (mapColCells (mapColCells (mapColCells (mapColCells N
      (lit "admission_type") (fun c => .s (map_admission_type c)))
      (lit "enrollment_status") (fun c => .s (map_enrollment_status c)))
      (lit "discipline_status") (fun c => .s (map_discipline_status c)))
      (lit "payment_status") (fun c => .s (map_payment_status c)))
      (lit "discipline_status") (.s (map_discipline_status v)) :=
  colConst_mapColCells_ne _ _ _ _ _ (by decide)
    (colConst_mapColCells_eq (mapColCells (mapColCells N (lit "admission_type")
        (fun c => .s (map_admission_type c))) (lit "enrollment_status")
        (fun c => .s (map_enrollment_status c))) (lit "discipline_status")
        (fun c => .s (map_discipline_status c)) v hm
      (dfWf_mapColCells _ _ _ (dfWf_mapColCells _ _ _ hwfN))
      (colConst_mapColCells_ne _ _ _ _ _ (by decide)
        (colConst_mapColCells_ne _ _ _ _ _ (by decide) h)))

/-- Helper: the mapper phase maps a constant `payment_status` column. -/
theorem colConst_mapper_pay (N : DF) (hwfN : dfWf N) (hm : lit "payment_status" ∈ N.cols)
    (v : Cell) (h : ColConst N (lit "payment_status") v) :
    ColConst (mapColCells (mapColCells (mapColCells (mapColCells N
      (lit "admission_type") (fun c => .s (map_admission_type c)))
      (lit "enrollment_status") (fun c => .s (map_enrollment_status c)))
      (lit "discipline_status") (fun c => .s (map_discipline_status c)))
      (lit "payment_status") (fun c => .s (map_payment_status c)))
      (lit "payment_status") (.s (map_payment_status v)) :=
  colConst_mapColCells_eq (mapColCells (mapColCells (mapColCells N (lit "admission_type")
      (fun c => .s (map_admission_type c))) (lit "enrollment_status")
      (fun c => .s (map_enrollment_status c))) (lit "discipline_status")
      (fun c => .s (map_discipline_status c))) (lit "payment_status")
      (fun c => .s (map_payment_status c)) v hm
    (dfWf_mapColCells _ _ _ (dfWf_mapColCells _ _ _ (dfWf_mapColCells _ _ _ hwfN)))
    (colConst_mapColCells_ne _ _ _ _ _ (by decide)
      (colConst_mapColCells_ne _ _ _ _ _ (by decide)
        (colConst_mapColCells_ne _ _ _ _ _ (by decide) h)))

set_option maxHeartbeats 1000000 in
/-- C5: every successful run of `process_university_data` yields a table
containing all thirteen canonical fields with every row covering all columns,
absent numeric source fields filled by the NaN sentinel, and absent
categorical source fields filled by their defaults (`admission_type`
defaulting to "vestibular"). -/
theorem canonical_schema_complete (df : DF) (hwf : dfWf df) (out : DF)
    (hok : process_university_data df = .ok out) :
    (∀ g ∈ canonicalFields, g ∈ out.cols) ∧
    dfWf out ∧
    (lit "final_grade" ∉ resolvedCols df → ColConst out (lit "final_grade") .na) ∧
    (lit "attendance_pct" ∉ resolvedCols df → ColConst out (lit "attendance_pct") .na) ∧
    (lit "course_evaluation" ∉ resolvedCols df → ColConst out (lit "course_evaluation") .na) ∧
    (lit "payment_status" ∉ resolvedCols df →
      ColConst out (lit "payment_status") (.s (lit "pendente"))) ∧
    (lit "enrollment_status" ∉ resolvedCols df →
      ColConst out (lit "enrollment_status") (.s (lit "ativo"))) ∧
    (lit "discipline_status" ∉ resolvedCols df →
      ColConst out (lit "discipline_status") (.s (lit "em_andamento"))) ∧
    (lit "admission_type" ∉ resolvedCols df →
      ColConst out (lit "admission_type") (.s (lit "vestibular"))) := by
  obtain ⟨d, d2, hnum, hmap, hout⟩ := process_ok_inv df out hok
  have hd := numericStep_ok_inv _ _ hnum
  have hd2 := mapperStep_ok_inv _ _ hmap
  have hwfP : dfWf (preStep df) := dfWf_preStep df hwf
  have hwfd : dfWf d := by
    rw [hd]
    exact dfWf_mapColCells _ _ _ (dfWf_mapColCells _ _ _ (dfWf_mapColCells _ _ _ hwfP))
  have hwfd2 : dfWf d2 := by
    rw [hd2]
    exact dfWf_mapColCells _ _ _ (dfWf_mapColCells _ _ _ (dfWf_mapColCells _ _ _
      (dfWf_mapColCells _ _ _ hwfd)))
  have hd2cols : d2.cols = (preStep df).cols := by
    simp only [hd2, hd, mapColCells_cols]
  have hwfout : dfWf out := by
    rw [hout]
    unfold flagsStep
    exact dfWf_setColWith _ _ _ (dfWf_setColWith _ _ _ hwfd2)
  have hflags : ∀ (m : PyStr) (v : Cell), m ≠ lit "is_passing" → m ≠ lit "at_risk" →
      ColConst d2 m v → ColConst out m v := by
    intro m v hne1 hne2 hc
    rw [hout]
    unfold flagsStep
    exact colConst_setColWith_ne _ _ _ _ _ (dfWf_setColWith _ _ _ hwfd2) hne2
      (colConst_setColWith_ne _ _ _ _ _ hwfd2 hne1 hc)
  refine ⟨?_, hwfout, ?_, ?_, ?_, ?_, ?_, ?_, ?_⟩
  · intro g hg
    have hmono : ∀ m : PyStr, m ∈ d2.cols → m ∈ out.cols := by
      intro m hm
      rw [hout]
      unfold flagsStep
      exact mem_setColWith_mono _ _ _ _ (mem_setColWith_mono _ _ _ _ hm)
    rcases List.mem_append.mp hg with h | h
    · refine hmono g ?_
      rw [hd2cols]
      exact (preStep_mem df).1 g h
    · have hip : lit "is_passing" ∈ out.cols := by
        rw [hout]
        unfold flagsStep
        exact mem_setColWith_mono _ _ _ _ (mem_setColWith_self _ _ _)
      have har : lit "at_risk" ∈ out.cols := by
        rw [hout]
        unfold flagsStep
        exact mem_setColWith_self _ _ _
      simp only [List.mem_cons, List.not_mem_nil, or_false] at h
      rcases h with rfl | rfl | rfl
      · refine hmono _ ?_
        rw [hd2cols]
        exact (preStep_mem df).2
      · exact hip
      · exact har
  · intro habs
    have hP : ColConst (preStep df) (lit "final_grade") .na :=
      preStep_colConst_na df (lit "final_grade") hwf (by decide) habs (by decide) (by decide)
        (by decide) (by decide) (by decide)
    have hN := colConst_numeric_fg (preStep df) hwfP
      ((preStep_mem df).1 (lit "final_grade") (by decide)) Cell.na hP
    have hM := colConst_mapperPhase_ne _ (lit "final_grade") Cell.na (by decide) (by decide)
      (by decide) (by decide) hN
    have hD2 : ColConst d2 (lit "final_grade") Cell.na := by
      rw [hd2, hd]
      exact hM
    exact hflags (lit "final_grade") Cell.na (by decide) (by decide) hD2
  · intro habs
    have hP : ColConst (preStep df) (lit "attendance_pct") .na :=
      preStep_colConst_na df (lit "attendance_pct") hwf (by decide) habs (by decide) (by decide)
        (by decide) (by decide) (by decide)
    have hN := colConst_numeric_att (preStep df) hwfP
      ((preStep_mem df).1 (lit "attendance_pct") (by decide)) Cell.na hP
    have hM := colConst_mapperPhase_ne _ (lit "attendance_pct") Cell.na (by decide) (by decide)
      (by decide) (by decide) hN
    have hD2 : ColConst d2 (lit "attendance_pct") Cell.na := by
      rw [hd2, hd]
      exact hM
    exact hflags (lit "attendance_pct") Cell.na (by decide) (by decide) hD2
  · intro habs
    have hP : ColConst (preStep df) (lit "course_evaluation") .na :=
      preStep_colConst_na df (lit "course_evaluation") hwf (by decide) habs (by decide) (by decide)
        (by decide) (by decide) (by decide)
    have hN := colConst_numeric_ce (preStep df) hwfP
      ((preStep_mem df).1 (lit "course_evaluation") (by decide)) Cell.na hP
    have hM := colConst_mapperPhase_ne _ (lit "course_evaluation") Cell.na (by decide) (by decide)
      (by decide) (by decide) hN
    have hD2 : ColConst d2 (lit "course_evaluation") Cell.na := by
      rw [hd2, hd]
      exact hM
    exact hflags (lit "course_evaluation") Cell.na (by decide) (by decide) hD2
  · intro habs
    have hP : ColConst (preStep df) (lit "payment_status") .na :=
      preStep_colConst_na df (lit "payment_status") hwf (by decide) habs (by decide) (by decide)
        (by decide) (by decide) (by decide)
    have hN := colConst_numericPhase_ne (preStep df) (lit "payment_status") Cell.na
      (by decide) (by decide) (by decide) hP
    have hmN : lit "payment_status" ∈ (mapColCells (mapColCells (mapColCells (preStep df) (lit "final_grade") toNumericCell)
        (lit "attendance_pct") toNumericCell) (lit "course_evaluation") toNumericCell).cols := by
      rw [mapColCells_cols, mapColCells_cols, mapColCells_cols]
      exact (preStep_mem df).1 (lit "payment_status") (by decide)
    have hM := colConst_mapper_pay (mapColCells (mapColCells (mapColCells (preStep df) (lit "final_grade") toNumericCell)
        (lit "attendance_pct") toNumericCell) (lit "course_evaluation") toNumericCell)
      (dfWf_mapColCells _ _ _ (dfWf_mapColCells _ _ _ (dfWf_mapColCells _ _ _ hwfP)))
      hmN Cell.na hN
    have hD2 : ColConst d2 (lit "payment_status") (.s (lit "pendente")) := by
      rw [hd2, hd]
      exact hM
    exact hflags (lit "payment_status") (.s (lit "pendente")) (by decide) (by decide) hD2
  · intro habs
    have hP : ColConst (preStep df) (lit "enrollment_status") .na :=
      preStep_colConst_na df (lit "enrollment_status") hwf (by decide) habs (by decide) (by decide)
        (by decide) (by decide) (by decide)
    have hN := colConst_numericPhase_ne (preStep df) (lit "enrollment_status") Cell.na
      (by decide) (by decide) (by decide) hP
    have hmN : lit "enrollment_status" ∈ (mapColCells (mapColCells (mapColCells (preStep df) (lit "final_grade") toNumericCell)
        (lit "attendance_pct") toNumericCell) (lit "course_evaluation") toNumericCell).cols := by
      rw [mapColCells_cols, mapColCells_cols, mapColCells_cols]
      exact (preStep_mem df).1 (lit "enrollment_status") (by decide)
    have hM := colConst_mapper_enr (mapColCells (mapColCells (mapColCells (preStep df) (lit "final_grade") toNumericCell)
        (lit "attendance_pct") toNumericCell) (lit "course_evaluation") toNumericCell)
      (dfWf_mapColCells _ _ _ (dfWf_mapColCells _ _ _ (dfWf_mapColCells _ _ _ hwfP)))
      hmN Cell.na hN
    have hD2 : ColConst d2 (lit "enrollment_status") (.s (lit "ativo")) := by
      rw [hd2, hd]
      exact hM
    exact hflags (lit "enrollment_status") (.s (lit "ativo")) (by decide) (by decide) hD2
  · intro habs
    have hP : ColConst (preStep df) (lit "discipline_status") .na :=
      preStep_colConst_na df (lit "discipline_status") hwf (by decide) habs (by decide) (by decide)
        (by decide) (by decide) (by decide)
    have hN := colConst_numericPhase_ne (preStep df) (lit "discipline_status") Cell.na
      (by decide) (by decide) (by decide) hP
    have hmN : lit "discipline_status" ∈ (mapColCells (mapColCells (mapColCells (preStep df) (lit "final_grade") toNumericCell)
        (lit "attendance_pct") toNumericCell) (lit "course_evaluation") toNumericCell).cols := by
      rw [mapColCells_cols, mapColCells_cols, mapColCells_cols]
      exact (preStep_mem df).1 (lit "discipline_status") (by decide)
    have hM := colConst_mapper_dis (mapColCells (mapColCells (mapColCells (preStep df) (lit "final_grade") toNumericCell)
        (lit "attendance_pct") toNumericCell) (lit "course_evaluation") toNumericCell)
      (dfWf_mapColCells _ _ _ (dfWf_mapColCells _ _ _ (dfWf_mapColCells _ _ _ hwfP)))
      hmN Cell.na hN
    have hD2 : ColConst d2 (lit "discipline_status") (.s (lit "em_andamento")) := by
      rw [hd2, hd]
      exact hM
    exact hflags (lit "discipline_status") (.s (lit "em_andamento")) (by decide) (by decide) hD2
  · intro habs
    have hP : ColConst (preStep df) (lit "admission_type") (.s (lit "vestibular")) :=
      preStep_colConst_admission df hwf habs
    have hN := colConst_numericPhase_ne (preStep df) (lit "admission_type")
      (.s (lit "vestibular")) (by decide) (by decide) (by decide) hP
    have hmN : lit "admission_type" ∈ (mapColCells (mapColCells (mapColCells (preStep df) (lit "final_grade") toNumericCell)
        (lit "attendance_pct") toNumericCell) (lit "course_evaluation") toNumericCell).cols := by
      rw [mapColCells_cols, mapColCells_cols, mapColCells_cols]
      exact (preStep_mem df).2
    have hM := colConst_mapper_adm (mapColCells (mapColCells (mapColCells (preStep df) (lit "final_grade") toNumericCell)
        (lit "attendance_pct") toNumericCell) (lit "course_evaluation") toNumericCell)
      (dfWf_mapColCells _ _ _ (dfWf_mapColCells _ _ _ (dfWf_mapColCells _ _ _ hwfP)))
      hmN (.s (lit "vestibular")) hN
    have hval : Cell.s (map_admission_type (Cell.s (lit "vestibular"))) = Cell.s (lit "vestibular") := by
      decide
    rw [hval] at hM
    have hD2 : ColConst d2 (lit "admission_type") (.s (lit "vestibular")) := by
      rw [hd2, hd]
      exact hM
    exact hflags (lit "admission_type") (.s (lit "vestibular")) (by decide) (by decide) hD2

set_option maxHeartbeats 1000000 in
/-- C9: in every row of a successful `process_university_data` output whose
`final_grade` and `attendance_pct` are missing and whose `payment_status` is
not "atrasado", both derived flags are False — NaN comparisons against the
thresholds are false on both sides. -/
theorem flags_false_on_missing (df : DF) (hwf : dfWf df) (out : DF)
    (hok : process_university_data df = .ok out) :
    ∀ row ∈ out.rows,
      getCell out.cols row (lit "final_grade") = .na →
      getCell out.cols row (lit "attendance_pct") = .na →
      getCell out.cols row (lit "payment_status") ≠ .s (lit "atrasado") →
      getCell out.cols row (lit "is_passing") = .b false ∧
      getCell out.cols row (lit "at_risk") = .b false := by
  obtain ⟨d, d2, hnum, hmap, hout⟩ := process_ok_inv df out hok
  have hd := numericStep_ok_inv _ _ hnum
  have hd2 := mapperStep_ok_inv _ _ hmap
  have hwfP : dfWf (preStep df) := dfWf_preStep df hwf
  have hwfd : dfWf d := by
    rw [hd]
    exact dfWf_mapColCells _ _ _ (dfWf_mapColCells _ _ _ (dfWf_mapColCells _ _ _ hwfP))
  have hwfd2 : dfWf d2 := by
    rw [hd2]
    exact dfWf_mapColCells _ _ _ (dfWf_mapColCells _ _ _ (dfWf_mapColCells _ _ _
      (dfWf_mapColCells _ _ _ hwfd)))
  have hout2 : out = setColWith (setColWith d2 (lit "is_passing") (isPassingOf d2.cols))
      (lit "at_risk") (atRiskOf (setColWith d2 (lit "is_passing") (isPassingOf d2.cols)).cols) := by
    rw [hout]
    rfl
  obtain ⟨gA, hrowsA, hpropA⟩ := setColWith_rows_form d2 (lit "is_passing") (isPassingOf d2.cols)
  have hwfd1 : dfWf (setColWith d2 (lit "is_passing") (isPassingOf d2.cols)) :=
    dfWf_setColWith _ _ _ hwfd2
  obtain ⟨gB, hrowsB, hpropB⟩ := setColWith_rows_form
    (setColWith d2 (lit "is_passing") (isPassingOf d2.cols)) (lit "at_risk")
    (atRiskOf (setColWith d2 (lit "is_passing") (isPassingOf d2.cols)).cols)
  intro row hrow hfg hatt hpay
  rw [hout2] at hrow hfg hatt hpay ⊢
  rw [hrowsB, hrowsA] at hrow
  simp only [List.map_map, List.mem_map] at hrow
  obtain ⟨r0, hr0, rfl⟩ := hrow
  have hlen0 : r0.length = d2.cols.length := hwfd2 r0 hr0
  have hmemA : gA r0 ∈ (setColWith d2 (lit "is_passing") (isPassingOf d2.cols)).rows := by
    rw [hrowsA]
    exact List.mem_map_of_mem gA hr0
  have hlen1 : (gA r0).length = (setColWith d2 (lit "is_passing") (isPassingOf d2.cols)).cols.length :=
    hwfd1 _ hmemA
  have htrans : ∀ m : PyStr, m ≠ lit "is_passing" → m ≠ lit "at_risk" →
      getCell (setColWith (setColWith d2 (lit "is_passing") (isPassingOf d2.cols))
        (lit "at_risk") (atRiskOf (setColWith d2 (lit "is_passing") (isPassingOf d2.cols)).cols)).cols
        (gB (gA r0)) m = getCell d2.cols r0 m := by
    intro m hm1 hm2
    rw [(hpropB (gA r0) hlen1).2 m hm2, (hpropA r0 hlen0).2 m hm1]
  rw [Function.comp_apply] at hfg hatt hpay ⊢
  rw [htrans _ (by decide) (by decide)] at hfg
  rw [htrans _ (by decide) (by decide)] at hatt
  rw [htrans _ (by decide) (by decide)] at hpay
  constructor
  · rw [(hpropB (gA r0) hlen1).2 (lit "is_passing") (by decide), (hpropA r0 hlen0).1]
    unfold isPassingOf
    rw [hfg]
    simp [cellGE]
  · rw [(hpropB (gA r0) hlen1).1]
    unfold atRiskOf
    rw [(hpropA r0 hlen0).2 (lit "final_grade") (by decide),
      (hpropA r0 hlen0).2 (lit "attendance_pct") (by decide),
      (hpropA r0 hlen0).2 (lit "payment_status") (by decide), hfg, hatt]
    have hbeq : (getCell d2.cols r0 (lit "payment_status") == Cell.s (lit "atrasado")) = false :=
      beq_eq_false_iff_ne.mpr hpay
    rw [hbeq]
    simp [cellLT]

set_option maxHeartbeats 1000000 in
/-- Witness for `canonical_schema_complete` at the concrete one-column table
`plainDF`, discharging every hypothesis. -/
theorem canonical_schema_complete_witness :
    dfWf plainDF ∧
    lit "is_passing" ∈ (getOk (process_university_data plainDF)).cols ∧
    ColConst (getOk (process_university_data plainDF)) (lit "payment_status")
      (.s (lit "pendente")) := by
  have h := canonical_schema_complete plainDF (by decide)
    (getOk (process_university_data plainDF)) rfl
  exact ⟨by decide, h.1 (lit "is_passing") (by decide), h.2.2.2.2.2.1 (by decide)⟩

set_option maxHeartbeats 1000000 in
/-- Witness for `flags_false_on_missing` at the concrete one-column table
`plainDF`, discharging every hypothesis. -/
theorem flags_false_on_missing_witness :
    getCell (getOk (process_university_data plainDF)).cols
      ((getOk (process_university_data plainDF)).rows.headD [])
      (lit "is_passing") = .b false ∧
    getCell (getOk (process_university_data plainDF)).cols
      ((getOk (process_university_data plainDF)).rows.headD [])
      (lit "at_risk") = .b false :=
  flags_false_on_missing plainDF (by decide) (getOk (process_university_data plainDF)) rfl
    _ (by decide) (by decide) (by decide) (by decide)
